import Mathlib

/-!
# Process-group join probe (`run.c`)

A shallow embedding of `run.c` and the properties of its control flow.

The program is a fixed sequence of calls into libc and the kernel.  A process is
embedded as a tree of such calls (`Prog`): every node is one call together with
the continuation that receives the value the call returns.  `fork` returns in two
processes, so the same tree describes the parent (where `fork` returns the pid of
the child) and each child (where `fork` returns 0).  What the operating system
answers is not part of the program: it is an input (`OS`), and `exec` replays the
program against it, yielding the trace of calls one process makes.  A call of `pause`
or `waitpid` may also never return; the trace then ends there.

Properties of one process are stated on its trace, for every operating system.
Properties of the order in which the lines of the three processes appear are stated
on a log of a whole run (`Run`, `Valid`).
-/

namespace PgrpRace

/-! ## Data model -/

/-- A C string: the bytes before the terminating NUL. -/
abbrev CString := List Nat

/-- The bytes of an ASCII literal. -/
def cstr (s : String) : CString := s.data.map Char.toNat

/-- The signals the program names.  The number behind the name is given by `signal.h` and
the program never looks at it. -/
inductive Signal where
  | SIGUSR1
  deriving DecidableEq, Repr

/-- The handlers the program defines: `static void noop(int ignore) {}`. -/
inductive Handler where
  | noop
  deriving DecidableEq, Repr

/-- One call into libc or the kernel, with the arguments the program passes.  `printf`
carries its format and the values for its `%d`; the status argument of `waitpid` is a
pointer, 0 for the null pointer. -/
inductive Call where
  | signal (sig : Signal) (handler : Handler)
  | fork
  | perror (msg : String)
  | printf (fmt : String) (args : List Int)
  | getpid
  | setpgid (pid pgid : Int)
  | pause
  | sleep (seconds : Int)
  | killpg (pgrp : Int) (sig : Signal)
  | waitpid (pid status options : Int)
  deriving DecidableEq, Repr

/-- The calls that may suspend the caller for ever. -/
def Call.mayBlock : Call → Bool
  | .pause => true
  | .waitpid _ _ _ => true
  | _ => false

/-- A process as a tree of calls.  `call c k` performs `c` and goes on with `k r`
where `r` is the value returned; `halt code` is `_exit(code)`, after which nothing
is executed; `pure v` is the end of the computation with value `v`. -/
inductive Prog (α : Type) where
  | pure (v : α)
  | call (c : Call) (k : Int → Prog α)
  | halt (code : Int)

/-- Sequencing of two pieces of program. -/
def Prog.bind {α β : Type} : Prog α → (α → Prog β) → Prog β
  | .pure v, f => f v
  | .call c k, f => .call c (fun r => (k r).bind f)
  | .halt code, _ => .halt code

instance : Monad Prog where
  pure := Prog.pure
  bind := Prog.bind

/-- A call whose returned value is used. -/
def sys (c : Call) : Prog Int := .call c .pure

/-- A call whose returned value is dropped. -/
def sys_ (c : Call) : Prog Unit := .call c (fun _ => .pure ())

/-- The libc call `_exit(code)`. -/
def _exit {α : Type} (code : Int) : Prog α := .halt code

/-! ## The program -/

/-- The libc function `strcmp` on NUL-terminated strings: the difference of the first
pair of bytes that differ, the end of a string counting as the byte 0. -/
def strcmp : CString → CString → Int
  | [], [] => 0
  | [], b :: _ => 0 - (b : Int)
  | a :: _, [] => (a : Int)
  | a :: as, b :: bs => if a = b then strcmp as bs else (a : Int) - (b : Int)

/-- The function `fork_or_die` of `run.c`: `fork()`, aborting on error. -/
def fork_or_die : Prog Int := do
  let pid ← sys .fork
  if pid < 0 then
    sys_ (.perror "fork")
    _exit (-1)
  return pid

/-- The flag `keepalive_leader` computed on the first line of `main`:
`argc > 1 && !strcmp(argv[1], "keepalive")`. -/
def keepalive_leader (argc : Int) (argv : List CString) : Bool :=
  decide (argc > 1) && decide (strcmp (argv.getD 1 []) (cstr "keepalive") = 0)

/-- The function `main` of `run.c`. -/
def main (argc : Int) (argv : List CString) : Prog Int := do
  let keepalive := keepalive_leader argc argv
  -- Handle SIGUSR1 so our children can awake from pause().
  sys_ (.signal .SIGUSR1 .noop)
  -- Launch the group leader. It may exit quickly.
  let leader ← fork_or_die
  if leader = 0 then
    -- Leader process.
    sys_ (.printf "Leader %d spawned\n" [← sys .getpid])
    if (← sys (.setpgid 0 (← sys .getpid))) < 0 then
      sys_ (.perror "leader failed to enter its own group")
    if keepalive then
      sys_ .pause
    sys_ (.printf "Leader %d exiting\n" [← sys .getpid])
    _exit 0
  -- Have the parent set the leader to lead its own pgroup.
  if (← sys (.setpgid leader leader)) < 0 then
    -- This is the known race between parent-side setpgid and the child exiting.
    -- It is expected to fail occasionally.
    -- perror("leader parentside setpgid");
    pure ()
  -- Wait a bit, allowing the leader to exit if it decides to.
  sys_ (.sleep 1)
  -- Create a new child and place it in the (possibly exited) leader's group.
  let follower ← fork_or_die
  if follower = 0 then
    -- Follower process.
    sys_ (.printf "Follower %d spawned\n" [← sys .getpid])
    if (← sys (.setpgid 0 leader)) < 0 then
      sys_ (.perror "follower failed to setpgid to leader's group")
    sys_ .pause
    sys_ (.printf "Follower %d exiting\n" [← sys .getpid])
    _exit 0
  if (← sys (.setpgid follower leader)) < 0 then
    sys_ (.perror "child parentside setpgid")
  sys_ (.sleep 1)
  sys_ (.printf "Parent signalling pgrp %d\n" [leader])
  if (← sys (.killpg leader .SIGUSR1)) < 0 then
    sys_ (.perror "killpg")
  sys_ (.waitpid leader 0 0)
  sys_ (.waitpid follower 0 0)
  sys_ (.printf "Parent reaped children, exiting\n" [])
  return 0

/-! ## Execution against an operating system -/

/-- What one process observes of the operating system: the value returned by the
`n`-th call it makes (counted from 0), and whether that call, if it is one that may
block, never returns. -/
structure OS where
  result : Nat → Int
  hangs : Nat → Bool

/-- One step in the life of a process. -/
inductive Event where
  | did (c : Call) (r : Int)
  | stuck (c : Call)
  | exit (code : Int)
  | ret (value : Int)
  deriving DecidableEq, Repr

/-- The trace of a process: the calls made along its control path from the start of
`main`, in order, each with the value it returned.  The trace ends with `exit code`
(the process called `_exit`), with `ret v` (`main` returned `v`), or with `stuck c`
(the process is suspended in `c` for ever). -/
def exec : Prog Int → OS → Nat → List Event
  | .pure v, _, _ => [.ret v]
  | .halt code, _, _ => [.exit code]
  | .call c k, os, n =>
    if c.mayBlock && os.hangs n then [.stuck c]
    else .did c (os.result n) :: exec (k (os.result n)) os (n + 1)

/-- The trace of `main`. -/
def trace (argc : Int) (argv : List CString) (os : OS) : List Event :=
  exec (main argc argv) os 0

/-- An operating system that answers with the listed values, then with 0, and never
blocks. -/
def OS.ofList (rs : List Int) : OS := ⟨fun n => rs.getD n 0, fun _ => false⟩

/-! ## Reading a trace -/

/-- The call behind an event: a call that returned, or the call a process is stuck in. -/
def Event.call : Event → Option Call
  | .did c _ => some c
  | .stuck c => some c
  | _ => none

/-- The calls of a trace, in order. -/
def calls (t : List Event) : List Call := t.filterMap Event.call

/-- The value returned by `fork`, for an event that is a `fork`. -/
def Event.forkResult : Event → Option Int
  | .did .fork r => some r
  | _ => none

/-- The values returned by the `fork` calls of a trace, in order.  `[0]` is the trace of
the leader, `[l, 0]` the trace of the follower, and a trace without 0 is the trace of
the original process. -/
def forkResults (t : List Event) : List Int := t.filterMap Event.forkResult

/-- The calls that only write a diagnostic to standard error. -/
def Call.isDiagnostic : Call → Bool
  | .perror _ => true
  | _ => false

/-- The calls that send a signal to a process group. -/
def Call.isKillpg : Call → Bool
  | .killpg _ _ => true
  | _ => false

/-- The calls that reap a child. -/
def Call.isWaitpid : Call → Bool
  | .waitpid _ _ _ => true
  | _ => false

/-- The operations of a trace: its calls other than the diagnostics. -/
def operations (t : List Event) : List Call := (calls t).filter (fun c => !c.isDiagnostic)

/-- An event of `pause`: its return, or the process suspended in it for ever. -/
def Event.isPause : Event → Bool
  | .did .pause _ => true
  | .stuck .pause => true
  | _ => false

/-- An event of a process suspended for ever in a call. -/
def Event.isStuck : Event → Bool
  | .stuck _ => true
  | _ => false

/-- What a child does itself: the events after the `fork` that returned 0.  The events
before it were executed by its parent, before the child existed. -/
def childPart : List Event → Option (List Event)
  | [] => none
  | e :: t => if e = .did .fork 0 then some t else childPart t

/-- What a process does itself: the whole trace for the original process, the part after
its creation for a child. -/
def own (t : List Event) : List Event := (childPart t).getD t

/-- The exit status of a process as its parent reads it: the low 8 bits of the value
given to `_exit` or returned from `main`; `none` for a process that has not ended. -/
def exitStatus (t : List Event) : Option Int :=
  match t.getLast? with
  | some (.exit code) => some (code % 256)
  | some (.ret v) => some (v % 256)
  | _ => none

/-! ## A whole run: three processes

The order in which the lines of the three processes appear is not fixed by the program:
it depends on how the operating system interleaves them.  A whole run is modelled by what
the operating system answers to each process together with a log, the list of all events
of the three processes in the order in which they take effect.  `Valid` states what is
assumed of the operating system: every process follows its own program; a process does
nothing before the `fork` that creates it; `pause` returns only after a signal was sent,
and only `killpg` sends signals; and `sleep(1)` lasts long enough for every child that
exists to run up to its first `pause`, or to its end if it never pauses.  The last
assumption is the one the program itself makes ("Wait a bit, allowing the leader to exit
if it decides to"). -/

/-- The three processes of a run. -/
inductive Role where
  | parent
  | leader
  | follower
  deriving DecidableEq, Repr

/-- The number of `fork` calls the original process has made when a process exists: the
leader is its first child and the follower its second. -/
def Role.birth : Role → Nat
  | .parent => 0
  | .leader => 1
  | .follower => 2

/-- An entry of the log: an event and the process it belongs to. -/
abbrev Entry := Role × Event

/-- A whole run: the answers of the operating system to each process, and the log. -/
structure Run where
  os : Role → OS
  log : List Entry

/-- The events of one process in a log, in order. -/
def proj (log : List Entry) (who : Role) : List Event :=
  (log.filter (fun x => decide (x.1 = who))).map Prod.snd

/-- What a process of the run does itself, according to the program. -/
def Run.events (argc : Int) (argv : List CString) (run : Run) (who : Role) : List Event :=
  own (trace argc argv (run.os who))

/-- The number of `fork` calls of the original process in a log. -/
def created (log : List Entry) : Nat := (forkResults (proj log .parent)).length

/-- The events of a process before its first `pause`: all of them if it never pauses. -/
def startup (t : List Event) : List Event := t.takeWhile (fun e => !e.isPause)

/-- The event of `pause` returning. -/
def Event.isPauseReturn : Event → Bool
  | .did .pause _ => true
  | _ => false

/-- The event of a `killpg` call. -/
def Event.isKillpg : Event → Bool
  | .did (.killpg _ _) _ => true
  | _ => false

/-- The event of `sleep` returning. -/
def Event.isSleep : Event → Bool
  | .did (.sleep _) _ => true
  | _ => false

/-- An event that prints the line with the given format. -/
def Event.isLine (fmt : String) : Event → Bool
  | .did (.printf f _) _ => decide (f = fmt)
  | _ => false

/-- An entry for the given process printing the line with the given format. -/
def Entry.isLine (who : Role) (fmt : String) (x : Entry) : Bool :=
  decide (x.1 = who) && x.2.isLine fmt

/-- The formats of the lines written to standard output, in the order of the log. -/
def stdout (log : List Entry) : List String :=
  log.filterMap (fun x => match x.2 with
    | .did (.printf f _) _ => some f
    | _ => none)

/-- A run the operating system can produce when both `fork` calls succeed. -/
structure Valid (argc : Int) (argv : List CString) (run : Run) : Prop where
  /-- both `fork` calls succeed, and each child is the copy made by its `fork` -/
  forks : ∃ l f, 0 < l ∧ 0 < f ∧
    forkResults (trace argc argv (run.os .parent)) = [l, f] ∧
    forkResults (trace argc argv (run.os .leader)) = [0] ∧
    forkResults (trace argc argv (run.os .follower)) = [l, 0]
  /-- the events of each process in the log are what the program makes it do, in order -/
  order : ∀ who, proj run.log who = run.events argc argv who
  /-- a child does nothing before the `fork` that creates it -/
  born : ∀ i x, run.log[i]? = some x → x.1.birth ≤ created (run.log.take i)
  /-- `pause` returns only after a `killpg` -/
  wake : ∀ i x, run.log[i]? = some x → x.2.isPauseReturn = true →
    (run.log.take i).any (fun y => y.2.isKillpg) = true
  /-- when `sleep` returns, every child that exists has run up to its first `pause` -/
  settle : ∀ i x, run.log[i]? = some x → x.1 = Role.parent → x.2.isSleep = true →
    ∀ who ∈ [Role.leader, Role.follower], who.birth ≤ created (run.log.take i) →
      startup (run.events argc argv who) <+: proj (run.log.take i) who

/-- Every entry satisfying `p` comes before every entry satisfying `q`. -/
def ordered (p q : Entry → Bool) (log : List Entry) : Prop :=
  ∀ (i j : Nat) (x y : Entry), log[i]? = some x → log[j]? = some y →
    p x = true → q y = true → i < j

/-- What the ordering of the lines uses of the events `E` of a child whose lines have the
formats `spawned` and `exiting`, and which pauses when `blocks` is true: the child never
calls `killpg`; it prints its "spawned" line, and none after its first `pause`; if it
does not pause it has no event of `pause` at all; and if it pauses, its "exiting" line is
printed once, two events after the return of `pause`. -/
structure ChildForm (spawned exiting : String) (blocks : Bool) (E : List Event) : Prop where
  noKillpg : ∀ e ∈ E, e.isKillpg = false
  hasSpawned : ∃ e ∈ E, e.isLine spawned = true
  spawnedFirst : ∀ e ∈ E.dropWhile (fun e => !e.isPause), e.isLine spawned = false
  straight : blocks = false → E.dropWhile (fun e => !e.isPause) = []
  exitingLast : blocks = true → ∀ e ∈ E, e.isLine exiting = true →
    ∃ A x3 g e0 R, E = A ++ Event.did Call.pause x3 :: g :: e0 :: R ∧
      (∀ a ∈ A ++ [Event.did Call.pause x3, g], a.isLine exiting = false) ∧
      (∀ a ∈ R, a.isLine exiting = false)

/-- A run in the default mode, as on Linux: the leader (pid 101) exits at once, the
follower (pid 102) joins its group and is woken by the signal. -/
def defaultRun : Run where
  os := fun
    | .parent => OS.ofList [0, 101, 0, 0, 102, 0, 0, 27, 0, 101, 102, 32]
    | .leader => OS.ofList [0, 0, 101, 19, 101, 0, 101, 19]
    | .follower => OS.ofList [0, 101, 0, 0, 0, 102, 21, 0, -1, 102, 21]
  log := [
    (.parent, .did (.signal .SIGUSR1 .noop) 0),
    (.parent, .did .fork 101),
    (.parent, .did (.setpgid 101 101) 0),
    (.leader, .did .getpid 101),
    (.leader, .did (.printf "Leader %d spawned\n" [101]) 19),
    (.leader, .did .getpid 101),
    (.leader, .did (.setpgid 0 101) 0),
    (.leader, .did .getpid 101),
    (.leader, .did (.printf "Leader %d exiting\n" [101]) 19),
    (.leader, .exit 0),
    (.parent, .did (.sleep 1) 0),
    (.parent, .did .fork 102),
    (.parent, .did (.setpgid 102 101) 0),
    (.follower, .did .getpid 102),
    (.follower, .did (.printf "Follower %d spawned\n" [102]) 21),
    (.follower, .did (.setpgid 0 101) 0),
    (.parent, .did (.sleep 1) 0),
    (.parent, .did (.printf "Parent signalling pgrp %d\n" [101]) 27),
    (.parent, .did (.killpg 101 .SIGUSR1) 0),
    (.follower, .did .pause (-1)),
    (.follower, .did .getpid 102),
    (.follower, .did (.printf "Follower %d exiting\n" [102]) 21),
    (.follower, .exit 0),
    (.parent, .did (.waitpid 101 0 0) 101),
    (.parent, .did (.waitpid 102 0 0) 102),
    (.parent, .did (.printf "Parent reaped children, exiting\n" []) 32),
    (.parent, .ret 0)]

/-- A run in keepalive mode: leader and follower both pause until the signal. -/
def keepaliveRun : Run where
  os := fun
    | .parent => OS.ofList [0, 101, 0, 0, 102, 0, 0, 27, 0, 101, 102, 32]
    | .leader => OS.ofList [0, 0, 101, 19, 101, 0, -1, 101, 19]
    | .follower => OS.ofList [0, 101, 0, 0, 0, 102, 21, 0, -1, 102, 21]
  log := [
    (.parent, .did (.signal .SIGUSR1 .noop) 0),
    (.parent, .did .fork 101),
    (.leader, .did .getpid 101),
    (.parent, .did (.setpgid 101 101) 0),
    (.leader, .did (.printf "Leader %d spawned\n" [101]) 19),
    (.leader, .did .getpid 101),
    (.leader, .did (.setpgid 0 101) 0),
    (.parent, .did (.sleep 1) 0),
    (.parent, .did .fork 102),
    (.parent, .did (.setpgid 102 101) 0),
    (.follower, .did .getpid 102),
    (.follower, .did (.printf "Follower %d spawned\n" [102]) 21),
    (.follower, .did (.setpgid 0 101) 0),
    (.parent, .did (.sleep 1) 0),
    (.parent, .did (.printf "Parent signalling pgrp %d\n" [101]) 27),
    (.parent, .did (.killpg 101 .SIGUSR1) 0),
    (.follower, .did .pause (-1)),
    (.leader, .did .pause (-1)),
    (.leader, .did .getpid 101),
    (.follower, .did .getpid 102),
    (.leader, .did (.printf "Leader %d exiting\n" [101]) 19),
    (.follower, .did (.printf "Follower %d exiting\n" [102]) 21),
    (.leader, .exit 0),
    (.follower, .exit 0),
    (.parent, .did (.waitpid 101 0 0) 101),
    (.parent, .did (.waitpid 102 0 0) 102),
    (.parent, .did (.printf "Parent reaped children, exiting\n" []) 32),
    (.parent, .ret 0)]

/-! ## Lists -/

section Lists
variable {α : Type}

theorem forall_split_nil {P : List α → α → List α → Prop} :
    (∀ pre x post, ([] : List α) = pre ++ x :: post → P pre x post) ↔ True := by
  simp

/-- A property of every way to cut a list at one of its elements, unfolded at the head. -/
theorem forall_split_cons {P : List α → α → List α → Prop} {a : α} {l : List α} :
    (∀ pre x post, a :: l = pre ++ x :: post → P pre x post) ↔
      (P [] a l ∧ ∀ pre x post, l = pre ++ x :: post → P (a :: pre) x post) := by
  constructor
  · intro h
    exact ⟨h [] a l rfl, fun pre x post hl => h (a :: pre) x post (by simp [hl])⟩
  · rintro ⟨h0, h1⟩ pre x post h
    cases pre with
    | nil =>
      simp at h
      obtain ⟨rfl, rfl⟩ := h
      exact h0
    | cons b pre' =>
      simp at h
      obtain ⟨rfl, rfl⟩ := h
      exact h1 pre' x post rfl

end Lists

/-! ## Symbolic execution of `main` -/

section Shapes
open Event Call Signal Handler
variable (argc : Int) (argv : List CString) (os : OS)

theorem bind_def {α β : Type} (x : Prog α) (f : α → Prog β) : x >>= f = x.bind f := rfl

theorem pure_def {α : Type} (v : α) : (Pure.pure v : Prog α) = Prog.pure v := rfl

theorem ite_bind {α β : Type} (c : Prop) [Decidable c] (a b : Prog α) (f : α → Prog β) :
    (if c then a else b).bind f = if c then a.bind f else b.bind f := by
  split <;> rfl

/-- The program `main` as an explicit tree of calls. -/
theorem main_eq : main argc argv =
    .call (signal SIGUSR1 noop) fun _ =>
    .call fork fun leader =>
    if leader < 0 then .call (perror "fork") fun _ => .halt (-1)
    else if leader = 0 then
      .call getpid fun p1 =>
      .call (printf "Leader %d spawned\n" [p1]) fun _ =>
      .call getpid fun p2 =>
      .call (setpgid 0 p2) fun s =>
      if s < 0 then
        .call (perror "leader failed to enter its own group") fun _ =>
        if keepalive_leader argc argv = true then
          .call pause fun _ => .call getpid fun p3 =>
          .call (printf "Leader %d exiting\n" [p3]) fun _ => .halt 0
        else
          .call getpid fun p3 =>
          .call (printf "Leader %d exiting\n" [p3]) fun _ => .halt 0
      else
        if keepalive_leader argc argv = true then
          .call pause fun _ => .call getpid fun p3 =>
          .call (printf "Leader %d exiting\n" [p3]) fun _ => .halt 0
        else
          .call getpid fun p3 =>
          .call (printf "Leader %d exiting\n" [p3]) fun _ => .halt 0
    else
      .call (setpgid leader leader) fun _ =>
      .call (sleep 1) fun _ =>
      .call fork fun follower =>
      if follower < 0 then .call (perror "fork") fun _ => .halt (-1)
      else if follower = 0 then
        .call getpid fun p1 =>
        .call (printf "Follower %d spawned\n" [p1]) fun _ =>
        .call (setpgid 0 leader) fun s =>
        if s < 0 then
          .call (perror "follower failed to setpgid to leader's group") fun _ =>
          .call pause fun _ => .call getpid fun p3 =>
          .call (printf "Follower %d exiting\n" [p3]) fun _ => .halt 0
        else
          .call pause fun _ => .call getpid fun p3 =>
          .call (printf "Follower %d exiting\n" [p3]) fun _ => .halt 0
      else
        .call (setpgid follower leader) fun s2 =>
        if s2 < 0 then
          .call (perror "child parentside setpgid") fun _ =>
          .call (sleep 1) fun _ =>
          .call (printf "Parent signalling pgrp %d\n" [leader]) fun _ =>
          .call (killpg leader SIGUSR1) fun k =>
          if k < 0 then
            .call (perror "killpg") fun _ =>
            .call (waitpid leader 0 0) fun _ => .call (waitpid follower 0 0) fun _ =>
            .call (printf "Parent reaped children, exiting\n" []) fun _ => .pure 0
          else
            .call (waitpid leader 0 0) fun _ => .call (waitpid follower 0 0) fun _ =>
            .call (printf "Parent reaped children, exiting\n" []) fun _ => .pure 0
        else
          .call (sleep 1) fun _ =>
          .call (printf "Parent signalling pgrp %d\n" [leader]) fun _ =>
          .call (killpg leader SIGUSR1) fun k =>
          if k < 0 then
            .call (perror "killpg") fun _ =>
            .call (waitpid leader 0 0) fun _ => .call (waitpid follower 0 0) fun _ =>
            .call (printf "Parent reaped children, exiting\n" []) fun _ => .pure 0
          else
            .call (waitpid leader 0 0) fun _ => .call (waitpid follower 0 0) fun _ =>
            .call (printf "Parent reaped children, exiting\n" []) fun _ => .pure 0 := by
  simp only [main, fork_or_die, sys, sys_, _exit, Prog.bind, bind_def, pure_def, ite_bind,
    ite_self]

/-- The first `fork` fails. -/
theorem trace_fork1_neg (h : os.result 1 < 0) : ∃ x0 x2, trace argc argv os =
    [did (signal SIGUSR1 noop) x0, did fork (os.result 1),
     did (perror "fork") x2, exit (-1)] := by
  rw [trace, main_eq]
  simp [exec, Call.mayBlock, h]

/-- The first `fork` returns 0: the leader. -/
theorem trace_leader (h : os.result 1 = 0) :
    ∃ x0 p1 x1 p2 s x2 tail, trace argc argv os =
      [did (signal SIGUSR1 noop) x0, did fork 0, did getpid p1,
       did (printf "Leader %d spawned\n" [p1]) x1, did getpid p2, did (setpgid 0 p2) s]
      ++ (if s < 0 then [did (perror "leader failed to enter its own group") x2] else [])
      ++ tail ∧
      ((keepalive_leader argc argv = true ∧ (tail = [stuck pause] ∨ ∃ x3 p3 x4, tail =
          [did pause x3, did getpid p3, did (printf "Leader %d exiting\n" [p3]) x4, exit 0])) ∨
       (keepalive_leader argc argv = false ∧ ∃ p3 x4, tail =
          [did getpid p3, did (printf "Leader %d exiting\n" [p3]) x4, exit 0])) := by
  refine ⟨os.result 0, os.result 2, os.result 3, os.result 4, os.result 5, os.result 6, ?_⟩
  rw [trace, main_eq]
  cases hk : keepalive_leader argc argv <;> by_cases hs : os.result 5 < 0 <;>
    by_cases hh : os.hangs 6 <;> by_cases hh2 : os.hangs 7 <;>
    simp [exec, Call.mayBlock, h, hs, hh, hh2]

/-- The first `fork` succeeds and the second fails. -/
theorem trace_fork2_neg (hl : 0 < os.result 1) (h : os.result 4 < 0) :
    ∃ x0 s1 x3 x5, trace argc argv os =
      [did (signal SIGUSR1 noop) x0, did fork (os.result 1),
       did (setpgid (os.result 1) (os.result 1)) s1, did (sleep 1) x3, did fork (os.result 4),
       did (perror "fork") x5, exit (-1)] := by
  have h1 : ¬ os.result 1 < 0 := by omega
  have h2 : ¬ os.result 1 = 0 := by omega
  rw [trace, main_eq]
  simp [exec, Call.mayBlock, h, h1, h2]

/-- The first `fork` succeeds and the second returns 0: the follower. -/
theorem trace_follower (hl : 0 < os.result 1) (h : os.result 4 = 0) :
    ∃ x0 s1 x3 p1 x1 s x2 tail, trace argc argv os =
      [did (signal SIGUSR1 noop) x0, did fork (os.result 1),
       did (setpgid (os.result 1) (os.result 1)) s1, did (sleep 1) x3, did fork 0,
       did getpid p1, did (printf "Follower %d spawned\n" [p1]) x1,
       did (setpgid 0 (os.result 1)) s]
      ++ (if s < 0 then [did (perror "follower failed to setpgid to leader's group") x2]
          else [])
      ++ tail ∧
      (tail = [stuck pause] ∨ ∃ x3 p3 x4, tail =
          [did pause x3, did getpid p3, did (printf "Follower %d exiting\n" [p3]) x4, exit 0]) := by
  have h1 : ¬ os.result 1 < 0 := by omega
  have h2 : ¬ os.result 1 = 0 := by omega
  refine ⟨os.result 0, os.result 2, os.result 3, os.result 5, os.result 6, os.result 7,
    os.result 8, ?_⟩
  rw [trace, main_eq]
  by_cases hs : os.result 7 < 0 <;> by_cases hh : os.hangs 8 <;> by_cases hh2 : os.hangs 9 <;>
    simp [exec, Call.mayBlock, h, h1, h2, hs, hh, hh2]

/-- Both `fork` calls succeed: the original process. -/
theorem trace_parent (hl : 0 < os.result 1) (hf : 0 < os.result 4) :
    ∃ x0 s1 x3 s2 x6 x7 x8 k x10 tail, trace argc argv os =
      [did (signal SIGUSR1 noop) x0, did fork (os.result 1),
       did (setpgid (os.result 1) (os.result 1)) s1, did (sleep 1) x3, did fork (os.result 4),
       did (setpgid (os.result 4) (os.result 1)) s2]
      ++ (if s2 < 0 then [did (perror "child parentside setpgid") x6] else [])
      ++ [did (sleep 1) x7, did (printf "Parent signalling pgrp %d\n" [os.result 1]) x8,
          did (killpg (os.result 1) SIGUSR1) k]
      ++ (if k < 0 then [did (perror "killpg") x10] else [])
      ++ tail ∧
      (tail = [stuck (waitpid (os.result 1) 0 0)] ∨
       (∃ w1, tail = [did (waitpid (os.result 1) 0 0) w1, stuck (waitpid (os.result 4) 0 0)]) ∨
       (∃ w1 w2 x, tail = [did (waitpid (os.result 1) 0 0) w1, did (waitpid (os.result 4) 0 0) w2,
          did (printf "Parent reaped children, exiting\n" []) x, ret 0])) := by
  have h1 : ¬ os.result 1 < 0 := by omega
  have h2 : ¬ os.result 1 = 0 := by omega
  have h3 : ¬ os.result 4 < 0 := by omega
  have h4 : ¬ os.result 4 = 0 := by omega
  rw [trace, main_eq]
  by_cases hs : os.result 5 < 0
  · by_cases hk : os.result 9 < 0
    · refine ⟨os.result 0, os.result 2, os.result 3, os.result 5, os.result 6, os.result 7,
        os.result 8, os.result 9, os.result 10, ?_⟩
      by_cases hh : os.hangs 11 <;> by_cases hh2 : os.hangs 12 <;>
        simp [exec, Call.mayBlock, h1, h2, h3, h4, hs, hk, hh, hh2]
    · refine ⟨os.result 0, os.result 2, os.result 3, os.result 5, os.result 6, os.result 7,
        os.result 8, os.result 9, os.result 10, ?_⟩
      by_cases hh : os.hangs 10 <;> by_cases hh2 : os.hangs 11 <;>
        simp [exec, Call.mayBlock, h1, h2, h3, h4, hs, hk, hh, hh2]
  · by_cases hk : os.result 8 < 0
    · refine ⟨os.result 0, os.result 2, os.result 3, os.result 5, os.result 6, os.result 6,
        os.result 7, os.result 8, os.result 9, ?_⟩
      by_cases hh : os.hangs 10 <;> by_cases hh2 : os.hangs 11 <;>
        simp [exec, Call.mayBlock, h1, h2, h3, h4, hs, hk, hh, hh2]
    · refine ⟨os.result 0, os.result 2, os.result 3, os.result 5, os.result 6, os.result 6,
        os.result 7, os.result 8, os.result 9, ?_⟩
      by_cases hh : os.hangs 9 <;> by_cases hh2 : os.hangs 10 <;>
        simp [exec, Call.mayBlock, h1, h2, h3, h4, hs, hk, hh, hh2]

end Shapes


/-! ## Which process a trace belongs to -/

section Roles
open Event Call Signal Handler
variable (argc : Int) (argv : List CString) (os : OS)

/-- The `fork` results of a trace tell the five control paths of `main` apart. -/
theorem fork_cases :
    (os.result 1 < 0 ∧ forkResults (trace argc argv os) = [os.result 1]) ∨
    (os.result 1 = 0 ∧ forkResults (trace argc argv os) = [0]) ∨
    (0 < os.result 1 ∧ os.result 4 < 0 ∧
      forkResults (trace argc argv os) = [os.result 1, os.result 4]) ∨
    (0 < os.result 1 ∧ os.result 4 = 0 ∧
      forkResults (trace argc argv os) = [os.result 1, 0]) ∨
    (0 < os.result 1 ∧ 0 < os.result 4 ∧
      forkResults (trace argc argv os) = [os.result 1, os.result 4]) := by
  rcases lt_trichotomy (os.result 1) 0 with h1 | h1 | h1
  · left
    obtain ⟨x0, x2, ht⟩ := trace_fork1_neg argc argv os h1
    exact ⟨h1, by rw [ht]; simp [forkResults, Event.forkResult]⟩
  · right; left
    obtain ⟨x0, p1, x1, p2, s, x2, tail, ht, htail⟩ := trace_leader argc argv os h1
    refine ⟨h1, ?_⟩
    rw [ht]
    rcases htail with ⟨-, rfl | ⟨x3, p3, x4, rfl⟩⟩ | ⟨-, p3, x4, rfl⟩ <;>
      split_ifs <;> simp [forkResults, Event.forkResult]
  · right; right
    rcases lt_trichotomy (os.result 4) 0 with h4 | h4 | h4
    · left
      obtain ⟨x0, s1, x3, x5, ht⟩ := trace_fork2_neg argc argv os h1 h4
      exact ⟨h1, h4, by rw [ht]; simp [forkResults, Event.forkResult]⟩
    · right; left
      obtain ⟨x0, s1, x3, p1, x1, s, x2, tail, ht, htail⟩ := trace_follower argc argv os h1 h4
      refine ⟨h1, h4, ?_⟩
      rw [ht]
      rcases htail with rfl | ⟨x3, p3, x4, rfl⟩ <;>
        split_ifs <;> simp [forkResults, Event.forkResult]
    · right; right
      obtain ⟨x0, s1, x3, s2, x6, x7, x8, k, x10, tail, ht, htail⟩ :=
        trace_parent argc argv os h1 h4
      refine ⟨h1, h4, ?_⟩
      rw [ht]
      rcases htail with rfl | ⟨w1, rfl⟩ | ⟨w1, w2, x, rfl⟩ <;>
        split_ifs <;> simp [forkResults, Event.forkResult]

theorem leader_of_forks (h : forkResults (trace argc argv os) = [0]) : os.result 1 = 0 := by
  rcases fork_cases argc argv os with ⟨h1, h2⟩ | ⟨h1, -⟩ | ⟨-, -, h2⟩ | ⟨-, -, h2⟩ | ⟨-, -, h2⟩
  · rw [h2] at h; simp at h; omega
  · exact h1
  all_goals rw [h2] at h; simp at h

theorem follower_of_forks {l : Int} (h : forkResults (trace argc argv os) = [l, 0]) :
    os.result 1 = l ∧ 0 < l ∧ os.result 4 = 0 := by
  rcases fork_cases argc argv os with ⟨-, h2⟩ | ⟨-, h2⟩ | ⟨-, h4, h2⟩ | ⟨h1, h4, h2⟩ |
    ⟨-, h4, h2⟩
  · rw [h2] at h; simp at h
  · rw [h2] at h; simp at h
  · rw [h2] at h; simp at h; omega
  · rw [h2] at h; simp at h; exact ⟨h, h ▸ h1, h4⟩
  · rw [h2] at h; simp at h; omega

theorem parent_of_forks {l f : Int} (h : forkResults (trace argc argv os) = [l, f])
    (hf : 0 < f) : os.result 1 = l ∧ 0 < l ∧ os.result 4 = f := by
  rcases fork_cases argc argv os with ⟨-, h2⟩ | ⟨-, h2⟩ | ⟨-, h4, h2⟩ | ⟨-, h4, h2⟩ |
    ⟨h1, h4, h2⟩
  · rw [h2] at h; simp at h
  · rw [h2] at h; simp at h
  · rw [h2] at h; simp at h; omega
  · rw [h2] at h; simp at h; omega
  · rw [h2] at h; simp at h; exact ⟨h.1, h.1 ▸ h1, h.2⟩

/-- The trace of the original process when both `fork` calls succeed. -/
theorem parent_shape {l f : Int} (h : forkResults (trace argc argv os) = [l, f])
    (hf : 0 < f) :
    ∃ x0 s1 x3 s2 x6 x7 x8 k x10 tail, trace argc argv os =
      [did (signal SIGUSR1 noop) x0, did fork l, did (setpgid l l) s1, did (sleep 1) x3,
       did fork f, did (setpgid f l) s2]
      ++ (if s2 < 0 then [did (perror "child parentside setpgid") x6] else [])
      ++ [did (sleep 1) x7, did (printf "Parent signalling pgrp %d\n" [l]) x8,
          did (killpg l SIGUSR1) k]
      ++ (if k < 0 then [did (perror "killpg") x10] else [])
      ++ tail ∧
      (tail = [stuck (waitpid l 0 0)] ∨
       (∃ w1, tail = [did (waitpid l 0 0) w1, stuck (waitpid f 0 0)]) ∨
       (∃ w1 w2 x, tail = [did (waitpid l 0 0) w1, did (waitpid f 0 0) w2,
          did (printf "Parent reaped children, exiting\n" []) x, ret 0])) := by
  obtain ⟨h1, hl, h4⟩ := parent_of_forks argc argv os h hf
  subst h1 h4
  exact trace_parent argc argv os hl hf

/-- The trace of the leader. -/
theorem leader_shape (h : forkResults (trace argc argv os) = [0]) :
    ∃ x0 p1 x1 p2 s x2 tail, trace argc argv os =
      [did (signal SIGUSR1 noop) x0, did fork 0, did getpid p1,
       did (printf "Leader %d spawned\n" [p1]) x1, did getpid p2, did (setpgid 0 p2) s]
      ++ (if s < 0 then [did (perror "leader failed to enter its own group") x2] else [])
      ++ tail ∧
      ((keepalive_leader argc argv = true ∧ (tail = [stuck pause] ∨ ∃ x3 p3 x4, tail =
          [did pause x3, did getpid p3, did (printf "Leader %d exiting\n" [p3]) x4, exit 0])) ∨
       (keepalive_leader argc argv = false ∧ ∃ p3 x4, tail =
          [did getpid p3, did (printf "Leader %d exiting\n" [p3]) x4, exit 0])) :=
  trace_leader argc argv os (leader_of_forks argc argv os h)

/-- The trace of the follower. -/
theorem follower_shape {l : Int} (h : forkResults (trace argc argv os) = [l, 0]) :
    ∃ x0 s1 x3 p1 x1 s x2 tail, trace argc argv os =
      [did (signal SIGUSR1 noop) x0, did fork l, did (setpgid l l) s1, did (sleep 1) x3,
       did fork 0, did getpid p1, did (printf "Follower %d spawned\n" [p1]) x1,
       did (setpgid 0 l) s]
      ++ (if s < 0 then [did (perror "follower failed to setpgid to leader's group") x2]
          else [])
      ++ tail ∧
      (tail = [stuck pause] ∨ ∃ x3 p3 x4, tail =
          [did pause x3, did getpid p3, did (printf "Follower %d exiting\n" [p3]) x4, exit 0]) := by
  obtain ⟨h1, hl, h4⟩ := follower_of_forks argc argv os h
  subst h1
  exact trace_follower argc argv os hl h4

end Roles


/-! ## Diagnostics -/

section Diagnostics
open Event Call Signal Handler
variable (argc : Int) (argv : List CString) (os : OS)

theorem forkResults_split {t pre post : List Event} {e : Event} (h : t = pre ++ e :: post) :
    forkResults t = forkResults pre ++ forkResults (e :: post) := by
  rw [h]; simp [forkResults]

/-- When the first `fork` succeeds, the trace starts with these five events. -/
theorem trace_after_first_fork (hl : 0 < os.result 1) :
    ∃ x0 s1 x3 rest, trace argc argv os =
      did (signal SIGUSR1 noop) x0 :: did fork (os.result 1) ::
      did (setpgid (os.result 1) (os.result 1)) s1 :: did (sleep 1) x3 ::
      did fork (os.result 4) :: rest := by
  rcases lt_trichotomy (os.result 4) 0 with h4 | h4 | h4
  · obtain ⟨x0, s1, x3, x5, ht⟩ := trace_fork2_neg argc argv os hl h4
    exact ⟨x0, s1, x3, _, by rw [ht]⟩
  · obtain ⟨x0, s1, x3, p1, x1, s, x2, tail, ht, -⟩ := trace_follower argc argv os hl h4
    exact ⟨x0, s1, x3, _, by rw [ht, h4]; rfl⟩
  · obtain ⟨x0, s1, x3, s2, x6, x7, x8, k, x10, tail, ht, -⟩ :=
      trace_parent argc argv os hl h4
    exact ⟨x0, s1, x3, _, by rw [ht]; rfl⟩

theorem diag_leader_own (h1 : os.result 1 = 0) :
    ∀ pre e post, trace argc argv os = pre ++ e :: post →
    ∀ p s, e = did (setpgid 0 p) s → s < 0 →
      ∃ x e1 rest, post = did (perror "leader failed to enter its own group") x :: e1 :: rest ∧
        e1.call = some (if keepalive_leader argc argv = true then pause else getpid) := by
  obtain ⟨x0, p1, x1, p2, s, x2, tail, ht, htail⟩ := trace_leader argc argv os h1
  rw [ht]
  rcases htail with ⟨hk, rfl | ⟨x3, p3, x4, rfl⟩⟩ | ⟨hk, p3, x4, rfl⟩ <;>
    simp only [hk, if_true, Bool.false_eq_true, if_false] <;> split_ifs <;>
    simp only [List.cons_append, List.nil_append, List.append_nil,
      forall_split_cons, forall_split_nil] <;>
    simp only [Event.did.injEq, reduceCtorEq, false_and, false_implies, implies_true, true_and,
      and_true, Call.setpgid.injEq, forall_const] <;>
    rintro p s1 ⟨rfl, rfl⟩ hs <;>
    first
      | omega
      | exact ⟨_, _, _, rfl, by simp [Event.call, hk]⟩

theorem diag_parent_leader (hl : 0 < os.result 1) :
    ∀ pre e post, trace argc argv os = pre ++ e :: post →
    ∀ l s, e = did (setpgid l l) s → forkResults pre = [l] → l ≠ 0 →
      ∃ x rest, post = did (sleep 1) x :: rest := by
  obtain ⟨x0, s1, x3, rest, ht⟩ := trace_after_first_fork argc argv os hl
  rw [ht]
  simp only [forall_split_cons]
  simp only [Event.did.injEq, reduceCtorEq, false_and, false_implies, implies_true, true_and,
    and_true, Call.setpgid.injEq, forall_const]
  refine ⟨?_, ?_⟩
  · rintro l s ⟨-, -⟩ _ _
    exact ⟨_, _, rfl⟩
  · intro pre x post _ l s _ hf
    simp [forkResults, Event.forkResult] at hf

theorem diag_follower_own (hl : 0 < os.result 1) (h4 : os.result 4 = 0) :
    ∀ pre e post, trace argc argv os = pre ++ e :: post →
    ∀ l s, e = did (setpgid 0 l) s → s < 0 →
      ∃ x e1 rest, post =
        did (perror "follower failed to setpgid to leader's group") x :: e1 :: rest ∧
        e1.call = some pause := by
  obtain ⟨x0, s1, x3, p1, x1, s, x2, tail, ht, htail⟩ := trace_follower argc argv os hl h4
  have hne : os.result 1 ≠ 0 := by omega
  rw [ht]
  rcases htail with rfl | ⟨x3, p3, x4, rfl⟩ <;> split_ifs <;>
    simp only [List.cons_append, List.nil_append, List.append_nil,
      forall_split_cons, forall_split_nil] <;>
    simp only [Event.did.injEq, reduceCtorEq, false_and, false_implies, implies_true, true_and,
      and_true, Call.setpgid.injEq, forall_const, hne] <;>
    rintro l s1 ⟨rfl, rfl⟩ hs <;>
    first
      | omega
      | exact ⟨_, _, _, rfl, by simp [Event.call]⟩

theorem diag_parent_follower (hl : 0 < os.result 1) (h4 : 0 < os.result 4) :
    ∀ pre e post, trace argc argv os = pre ++ e :: post →
    ∀ l f s, e = did (setpgid f l) s → forkResults pre = [l, f] → s < 0 →
      ∃ x x1 rest, post =
        did (perror "child parentside setpgid") x :: did (sleep 1) x1 :: rest := by
  obtain ⟨x0, s1, x3, s2, x6, x7, x8, k, x10, tail, ht, htail⟩ :=
    trace_parent argc argv os hl h4
  rw [ht]
  rcases htail with rfl | ⟨w1, rfl⟩ | ⟨w1, w2, x, rfl⟩ <;> split_ifs <;>
    simp only [List.cons_append, List.nil_append, List.append_nil,
      forall_split_cons, forall_split_nil] <;>
    simp only [Event.did.injEq, reduceCtorEq, false_and, false_implies, implies_true, true_and,
      and_true, Call.setpgid.injEq, forall_const] <;>
    refine ⟨?_, ?_⟩ <;>
    rintro l f s ⟨h, rfl⟩ hf hs <;>
    first
      | omega
      | (simp [forkResults, Event.forkResult] at hf; done)
      | exact ⟨_, _, _, rfl⟩

theorem diag_killpg (hl : 0 < os.result 1) (h4 : 0 < os.result 4) :
    ∀ pre e post, trace argc argv os = pre ++ e :: post →
    ∀ g k, e = did (killpg g SIGUSR1) k → k < 0 →
      ∃ x e1 rest, post = did (perror "killpg") x :: e1 :: rest ∧
        e1.call = some (waitpid g 0 0) := by
  obtain ⟨x0, s1, x3, s2, x6, x7, x8, k, x10, tail, ht, htail⟩ :=
    trace_parent argc argv os hl h4
  rw [ht]
  rcases htail with rfl | ⟨w1, rfl⟩ | ⟨w1, w2, x, rfl⟩ <;> split_ifs <;>
    simp only [List.cons_append, List.nil_append, List.append_nil,
      forall_split_cons, forall_split_nil] <;>
    simp only [Event.did.injEq, reduceCtorEq, false_and, false_implies, implies_true, true_and,
      and_true, Call.killpg.injEq, forall_const] <;>
    rintro g k1 ⟨rfl, rfl⟩ hs <;>
    first
      | omega
      | exact ⟨_, _, _, rfl, by simp [Event.call]⟩

/-- No `setpgid` and no `killpg` occurs in a trace whose first `fork` failed. -/
theorem no_group_call_fork1_neg (h1 : os.result 1 < 0) :
    ∀ e ∈ trace argc argv os, (∀ a b s, e ≠ did (setpgid a b) s) ∧
      (∀ g sig k, e ≠ did (killpg g sig) k) := by
  obtain ⟨x0, x2, ht⟩ := trace_fork1_neg argc argv os h1
  rw [ht]
  simp

/-- No `killpg` occurs in a trace unless both `fork` calls succeeded. -/
theorem killpg_only_parent {g : Int} {sig : Signal} {k : Int}
    (h : did (killpg g sig) k ∈ trace argc argv os) :
    0 < os.result 1 ∧ 0 < os.result 4 := by
  rcases fork_cases argc argv os with ⟨h1, -⟩ | ⟨h1, -⟩ | ⟨h1, h4, -⟩ | ⟨h1, h4, -⟩ |
    ⟨h1, h4, -⟩
  · exact absurd rfl ((no_group_call_fork1_neg argc argv os h1 _ h).2 g sig k)
  · obtain ⟨x0, p1, x1, p2, s, x2, tail, ht, htail⟩ := trace_leader argc argv os h1
    rw [ht] at h
    rcases htail with ⟨hk, rfl | ⟨x3, p3, x4, rfl⟩⟩ | ⟨hk, p3, x4, rfl⟩ <;>
      split_ifs at h <;> simp at h
  · obtain ⟨x0, s1, x3, x5, ht⟩ := trace_fork2_neg argc argv os h1 h4
    rw [ht] at h
    simp at h
  · obtain ⟨x0, s1, x3, p1, x1, s, x2, tail, ht, htail⟩ := trace_follower argc argv os h1 h4
    rw [ht] at h
    rcases htail with rfl | ⟨x3, p3, x4, rfl⟩ <;> split_ifs at h <;> simp at h
  · exact ⟨h1, h4⟩

end Diagnostics

/-! ## Logs -/

section Logs
open Event Call Signal Handler

theorem forall_index_iff {α : Type} (l : List α) (P : Nat → α → Prop) :
    (∀ i x, l[i]? = some x → P i x) ↔ ∀ i : Fin l.length, P i.1 (l.get i) := by
  constructor
  · intro h i
    exact h i.1 (l.get i) (by simp)
  · intro h i x hx
    obtain ⟨hi, rfl⟩ := List.getElem?_eq_some_iff.mp hx
    exact h ⟨i, hi⟩

theorem proj_nil (who : Role) : proj [] who = [] := rfl

theorem proj_cons (x : Entry) (log : List Entry) (who : Role) :
    proj (x :: log) who = if x.1 = who then x.2 :: proj log who else proj log who := by
  unfold proj
  by_cases h : x.1 = who <;> simp [List.filter, h]

theorem proj_append (a b : List Entry) (who : Role) :
    proj (a ++ b) who = proj a who ++ proj b who := by
  simp [proj]

theorem split_at_index {α : Type} {l : List α} {i : Nat} {x : α} (h : l[i]? = some x) :
    l = l.take i ++ x :: l.drop (i + 1) := by
  obtain ⟨hi, rfl⟩ := List.getElem?_eq_some_iff.mp h
  rw [← List.drop_eq_getElem_cons hi, List.take_append_drop]

/-- The events of a process in a log, cut at one of its entries. -/
theorem proj_split {log : List Entry} {i : Nat} {who : Role} {e : Event}
    (h : log[i]? = some (who, e)) :
    proj log who = proj (log.take i) who ++ e :: proj (log.drop (i + 1)) who := by
  conv_lhs => rw [split_at_index h]
  simp [proj_append, proj_cons]

theorem mem_proj {log : List Entry} {who : Role} {e : Event} :
    e ∈ proj log who ↔ (who, e) ∈ log := by
  simp only [proj, List.mem_map, List.mem_filter, decide_eq_true_eq]
  constructor
  · rintro ⟨⟨w, e1⟩, ⟨hx, rfl⟩, rfl⟩
    exact hx
  · intro h
    exact ⟨(who, e), ⟨h, rfl⟩, rfl⟩

theorem mem_take_index {α : Type} {l : List α} {i : Nat} {x : α} (h : x ∈ l.take i) :
    ∃ j, j < i ∧ l[j]? = some x := by
  obtain ⟨j, hj⟩ := List.mem_iff_getElem?.mp h
  obtain ⟨hlt, -⟩ := List.getElem?_eq_some_iff.mp hj
  have hji : j < i := by
    have := List.length_take_le i l
    omega
  exact ⟨j, hji, by rw [← hj, List.getElem?_take_of_lt hji]⟩

/-- A list cut at its only element satisfying `p` is cut in one way only. -/
theorem unique_split {α : Type} (p : α → Bool) {A B A1 B1 : List α} {a a1 : α}
    (h : A ++ a :: B = A1 ++ a1 :: B1) (ha1 : p a1 = true)
    (hA : ∀ x ∈ A, p x = false) (hB : ∀ x ∈ B, p x = false) :
    A1 = A ∧ a1 = a ∧ B1 = B := by
  induction A generalizing A1 with
  | nil =>
    cases A1 with
    | nil =>
      simp at h
      exact ⟨rfl, h.1.symm, h.2.symm⟩
    | cons y A2 =>
      simp at h
      have : a1 ∈ B := by rw [h.2]; simp
      have := hB a1 this
      simp [ha1] at this
  | cons x A ih =>
    cases A1 with
    | nil =>
      simp at h
      have := hA x (by simp)
      rw [h.1] at this
      simp [ha1] at this
    | cons y A2 =>
      simp at h
      obtain ⟨rfl, h2⟩ := h
      obtain ⟨h3, h4, h5⟩ := ih h2 (fun z hz => hA z (List.mem_cons_of_mem _ hz))
      exact ⟨by rw [h3], h4, h5⟩

/-- An entry whose event is the only one of its kind in the trace of its process has
exactly the events before that one in front of it. -/
theorem pin {log : List Entry} {who : Role} (p : Event → Bool) {A B : List Event}
    {a e : Event} {i : Nat} (hproj : proj log who = A ++ a :: B)
    (hA : ∀ x ∈ A, p x = false) (hB : ∀ x ∈ B, p x = false)
    (hi : log[i]? = some (who, e)) (he : p e = true) :
    proj (log.take i) who = A ∧ e = a := by
  have h := proj_split hi
  rw [hproj] at h
  obtain ⟨h1, h2, -⟩ := unique_split p h he hA hB
  exact ⟨h1, h2⟩

/-- Every event of a process has its entry in the log, at the right place. -/
theorem entry_of_proj {log : List Entry} {who : Role} {A C : List Event} {e : Event}
    (h : proj log who = A ++ e :: C) :
    ∃ j, j < log.length ∧ log[j]? = some (who, e) ∧ proj (log.take j) who = A := by
  induction log generalizing A with
  | nil => simp [proj_nil] at h
  | cons x log ih =>
    rw [proj_cons] at h
    by_cases hx : x.1 = who
    · rw [if_pos hx] at h
      cases A with
      | nil =>
        simp at h
        refine ⟨0, by simp, ?_, by simp [proj_nil]⟩
        simp only [List.getElem?_cons_zero, Option.some.injEq]
        exact Prod.ext hx h.1
      | cons a A1 =>
        simp at h
        obtain ⟨j, hj, hj2, hj3⟩ := ih h.2
        refine ⟨j + 1, by simp; omega, by simpa using hj2, ?_⟩
        simp [proj_cons, hx, hj3, h.1]
    · rw [if_neg hx] at h
      obtain ⟨j, hj, hj2, hj3⟩ := ih h
      refine ⟨j + 1, by simp; omega, by simpa using hj2, ?_⟩
      simp [proj_cons, hx, hj3]

/-- The same, within the first `i` entries of the log. -/
theorem entry_before {log : List Entry} {who : Role} {A C : List Event} {e : Event} {i : Nat}
    (h : proj (log.take i) who = A ++ e :: C) :
    ∃ j, j < i ∧ log[j]? = some (who, e) ∧ proj (log.take j) who = A := by
  obtain ⟨j, hj, hj2, hj3⟩ := entry_of_proj h
  have hji : j < i := by
    have := List.length_take_le i log
    omega
  refine ⟨j, hji, ?_, ?_⟩
  · rw [← hj2, List.getElem?_take_of_lt hji]
  · rw [← hj3, List.take_take, Nat.min_eq_left (Nat.le_of_lt hji)]

/-- The events of a process among the first entries of the log grow with their number. -/
theorem proj_take_length_mono {log : List Entry} {who : Role} {i j : Nat} (h : i ≤ j) :
    (proj (log.take i) who).length ≤ (proj (log.take j) who).length := by
  have : log.take j = log.take i ++ (log.take j).drop i := by
    conv_lhs => rw [← List.take_append_drop i (log.take j)]
    rw [List.take_take, Nat.min_eq_left h]
  rw [this, proj_append]
  simp

theorem lt_of_proj_take {log : List Entry} {who : Role} {i j : Nat}
    (h : (proj (log.take i) who).length < (proj (log.take j) who).length) : i < j := by
  by_contra hle
  have := @proj_take_length_mono log who j i (by omega)
  omega


theorem proj_take_mono {log : List Entry} {who : Role} {i j : Nat} (h : i ≤ j) :
    proj (log.take i) who <+: proj (log.take j) who := by
  have : log.take j = log.take i ++ (log.take j).drop i := by
    conv_lhs => rw [← List.take_append_drop i (log.take j)]
    rw [List.take_take, Nat.min_eq_left h]
  rw [this, proj_append]
  exact List.prefix_append _ _

theorem childPart_none {t : List Event} (h : (0 : Int) ∉ forkResults t) : childPart t = none := by
  induction t with
  | nil => rfl
  | cons e t ih =>
    have he : e ≠ did fork 0 := by
      rintro rfl
      exact h (by simp [forkResults, Event.forkResult])
    have ht : (0 : Int) ∉ forkResults t := by
      intro h0
      apply h
      unfold forkResults at h0 ⊢
      rw [List.filterMap_cons]
      cases e.forkResult <;> simp [h0]
    simp [childPart, he, ih ht]

variable (argc : Int) (argv : List CString)

/-- What is used of the trace of the original process: the two `sleep` calls, the
signalling line and `killpg` follow one another, each `sleep` after one more `fork`. -/
theorem parent_form (os : OS) {l f : Int} (h : forkResults (trace argc argv os) = [l, f])
    (hl : 0 < l) (hf : 0 < f) :
    ∃ S1 x3 S2 x7 x8 k rest, own (trace argc argv os) =
        S1 ++ did (sleep 1) x3 :: (S2 ++ did (sleep 1) x7 ::
          did (printf "Parent signalling pgrp %d\n" [l]) x8 ::
          did (killpg l SIGUSR1) k :: rest) ∧
      (forkResults S1).length = 1 ∧
      (forkResults (S1 ++ did (sleep 1) x3 :: S2)).length = 2 ∧
      (∀ e ∈ S1 ++ did (sleep 1) x3 :: (S2 ++ [did (sleep 1) x7]),
        e.isLine "Parent signalling pgrp %d\n" = false ∧ e.isKillpg = false) ∧
      (∀ e ∈ rest, e.isLine "Parent signalling pgrp %d\n" = false ∧ e.isKillpg = false) := by
  obtain ⟨x0, s1, x3, s2, x6, x7, x8, k, x10, tail, ht, htail⟩ := parent_shape argc argv os h hf
  have hown : own (trace argc argv os) = trace argc argv os := by
    have : (0 : Int) ∉ forkResults (trace argc argv os) := by
      rw [h]; simp; omega
    simp [own, childPart_none this]
  refine ⟨[did (signal SIGUSR1 noop) x0, did fork l, did (setpgid l l) s1], x3,
    [did fork f, did (setpgid f l) s2]
      ++ (if s2 < 0 then [did (perror "child parentside setpgid") x6] else []), x7, x8, k,
    (if k < 0 then [did (perror "killpg") x10] else []) ++ tail, ?_, ?_, ?_, ?_, ?_⟩
  · rw [hown, ht]; simp
  · simp [forkResults, Event.forkResult]
  · split_ifs <;> simp [forkResults, Event.forkResult]
  · split_ifs <;> simp [Event.isLine, Event.isKillpg]
  · rcases htail with rfl | ⟨w1, rfl⟩ | ⟨w1, w2, x, rfl⟩ <;> split_ifs <;>
      simp [Event.isLine, Event.isKillpg]

theorem leader_form (os : OS) (h : forkResults (trace argc argv os) = [0]) :
    ChildForm "Leader %d spawned\n" "Leader %d exiting\n" (keepalive_leader argc argv)
      (own (trace argc argv os)) := by
  obtain ⟨x0, p1, x1, p2, s, x2, tail, ht, htail⟩ := leader_shape argc argv os h
  have hown : own (trace argc argv os) =
      [did getpid p1, did (printf "Leader %d spawned\n" [p1]) x1, did getpid p2,
       did (setpgid 0 p2) s]
      ++ (if s < 0 then [did (perror "leader failed to enter its own group") x2] else [])
      ++ tail := by
    rw [ht]; simp [own, childPart]
  rw [hown]
  constructor
  · rcases htail with ⟨hk, rfl | ⟨x3, p3, x4, rfl⟩⟩ | ⟨hk, p3, x4, rfl⟩ <;> split_ifs <;>
      simp [Event.isKillpg]
  · exact ⟨did (printf "Leader %d spawned\n" [p1]) x1, by simp, by simp [Event.isLine]⟩
  · rcases htail with ⟨hk, rfl | ⟨x3, p3, x4, rfl⟩⟩ | ⟨hk, p3, x4, rfl⟩ <;> split_ifs <;>
      simp [Event.isPause, Event.isLine, List.dropWhile]
  · intro hb
    rcases htail with ⟨hk, -⟩ | ⟨hk, p3, x4, rfl⟩
    · rw [hk] at hb; simp at hb
    · split_ifs <;> simp [Event.isPause, List.dropWhile]
  · intro hb e he hline
    rcases htail with ⟨hk, rfl | ⟨x3, p3, x4, rfl⟩⟩ | ⟨hk, -⟩
    · exfalso
      have hall : ∀ a ∈ [did getpid p1, did (printf "Leader %d spawned\n" [p1]) x1,
          did getpid p2, did (setpgid 0 p2) s]
          ++ (if s < 0 then [did (perror "leader failed to enter its own group") x2] else [])
          ++ [stuck pause], a.isLine "Leader %d exiting\n" = false := by
        split_ifs <;> simp [Event.isLine]
      rw [hall e he] at hline
      simp at hline
    · refine ⟨[did getpid p1, did (printf "Leader %d spawned\n" [p1]) x1, did getpid p2,
         did (setpgid 0 p2) s]
        ++ (if s < 0 then [did (perror "leader failed to enter its own group") x2] else []),
        x3, did getpid p3, did (printf "Leader %d exiting\n" [p3]) x4, [exit 0], by simp, ?_, ?_⟩
      · split_ifs <;> simp [Event.isLine]
      · simp [Event.isLine]
    · rw [hk] at hb; simp at hb


theorem follower_form (os : OS) {l : Int} (h : forkResults (trace argc argv os) = [l, 0]) :
    ChildForm "Follower %d spawned\n" "Follower %d exiting\n" true
      (own (trace argc argv os)) := by
  obtain ⟨x0, s1, x3, p1, x1, s, x2, tail, ht, htail⟩ := follower_shape argc argv os h
  obtain ⟨-, hl, -⟩ := follower_of_forks argc argv os h
  have hne : l ≠ 0 := by omega
  have hown : own (trace argc argv os) =
      [did getpid p1, did (printf "Follower %d spawned\n" [p1]) x1, did (setpgid 0 l) s]
      ++ (if s < 0 then [did (perror "follower failed to setpgid to leader's group") x2]
          else [])
      ++ tail := by
    rw [ht]; simp [own, childPart, hne]
  rw [hown]
  constructor
  · rcases htail with rfl | ⟨x3, p3, x4, rfl⟩ <;> split_ifs <;> simp [Event.isKillpg]
  · exact ⟨did (printf "Follower %d spawned\n" [p1]) x1, by simp, by simp [Event.isLine]⟩
  · rcases htail with rfl | ⟨x3, p3, x4, rfl⟩ <;> split_ifs <;>
      simp [Event.isPause, Event.isLine, List.dropWhile]
  · intro hb
    simp at hb
  · intro _ e he hline
    rcases htail with rfl | ⟨x3, p3, x4, rfl⟩
    · exfalso
      have hall : ∀ a ∈ [did getpid p1, did (printf "Follower %d spawned\n" [p1]) x1,
          did (setpgid 0 l) s]
          ++ (if s < 0 then [did (perror "follower failed to setpgid to leader's group") x2]
              else [])
          ++ [stuck pause], a.isLine "Follower %d exiting\n" = false := by
        split_ifs <;> simp [Event.isLine]
      rw [hall e he] at hline
      simp at hline
    · refine ⟨[did getpid p1, did (printf "Follower %d spawned\n" [p1]) x1,
         did (setpgid 0 l) s]
        ++ (if s < 0 then [did (perror "follower failed to setpgid to leader's group") x2]
            else []),
        x3, did getpid p3, did (printf "Follower %d exiting\n" [p3]) x4, [exit 0], by simp,
        ?_, ?_⟩
      · split_ifs <;> simp [Event.isLine]
      · simp [Event.isLine]

variable {argc argv} {run : Run}

/-- When `sleep` returns, an entry of a child that exists is in the past unless it comes
after a `pause` of that child. -/
theorem settled_before (hv : Valid argc argv run) {i : Nat} {x : Entry}
    (hi : run.log[i]? = some x) (hp : x.1 = Role.parent) (hs : x.2.isSleep = true)
    {who : Role} (hwho : who ∈ [Role.leader, Role.follower])
    (hb : who.birth ≤ created (run.log.take i)) {j : Nat} {e : Event}
    (hj : run.log[j]? = some (who, e))
    (he : e ∉ (run.events argc argv who).dropWhile (fun e => !e.isPause)) : j < i := by
  by_contra hle
  have hle : i ≤ j := by omega
  obtain ⟨Y, hY⟩ := (hv.settle i x hi hp hs who hwho hb).trans (proj_take_mono hle)
  have h1 := proj_split hj
  rw [hv.order who, ← hY] at h1
  have h3 : startup (run.events argc argv who) ++ (Y ++ e :: proj (run.log.drop (j + 1)) who) =
      startup (run.events argc argv who) ++
        (run.events argc argv who).dropWhile (fun e => !e.isPause) := by
    rw [← List.append_assoc, ← h1]
    exact (List.takeWhile_append_dropWhile (fun e : Event => !e.isPause) _).symm
  have h4 := List.append_cancel_left h3
  exact he (h4 ▸ by simp)


theorem created_of_proj {log : List Entry} {S : List Event} (h : proj log Role.parent = S) :
    created log = (forkResults S).length := by
  rw [created, h]

theorem isLine_entry {who : Role} {fmt : String} {x : Entry} (h : x.isLine who fmt = true) :
    x.1 = who ∧ x.2.isLine fmt = true := by
  simpa [Entry.isLine] using h

/-- The signalling line comes after the "spawned" line of a child, and after any line the
child prints without having paused. -/
theorem line_before_signal (hv : Valid argc argv run) {who : Role}
    (hwho : who ∈ [Role.leader, Role.follower]) {fmt : String}
    (hfmt : ∀ e ∈ (run.events argc argv who).dropWhile (fun e => !e.isPause),
      e.isLine fmt = false) :
    ordered (Entry.isLine who fmt) (Entry.isLine Role.parent "Parent signalling pgrp %d\n")
      run.log := by
  intro i j x y hi hj hx hy
  obtain ⟨l, f, hl, hf, hP, -, -⟩ := hv.forks
  obtain ⟨S1, x3, S2, x7, x8, k, rest, hE, hS1, hS2, hbefore, hafter⟩ :=
    parent_form argc argv (run.os Role.parent) hP hl hf
  obtain ⟨hx1, hx2⟩ := isLine_entry hx
  obtain ⟨hy1, hy2⟩ := isLine_entry hy
  have hyeq : y = (Role.parent, y.2) := Prod.ext hy1 rfl
  have hxeq : x = (who, x.2) := Prod.ext hx1 rfl
  rw [hyeq] at hj
  rw [hxeq] at hi
  -- the events of the original process before the signalling line
  have hproj : proj run.log Role.parent =
      (S1 ++ did (sleep 1) x3 :: (S2 ++ [did (sleep 1) x7])) ++
        did (printf "Parent signalling pgrp %d\n" [l]) x8 :: (did (killpg l SIGUSR1) k :: rest) := by
    rw [hv.order Role.parent, Run.events, hE]; simp
  have hpin := (pin (Event.isLine "Parent signalling pgrp %d\n") hproj
    (fun e he => (hbefore e he).1)
    (by
      intro e he
      rcases List.mem_cons.mp he with rfl | he
      · simp [Event.isLine]
      · exact (hafter e he).1) hj hy2).1
  -- the `sleep` that follows the creation of the child
  have hsleep : ∃ m, m < j ∧ (∃ z, run.log[m]? = some z ∧ z.1 = Role.parent ∧
      z.2.isSleep = true) ∧ who.birth ≤ created (run.log.take m) := by
    simp only [List.mem_cons, List.mem_singleton, List.not_mem_nil, or_false] at hwho
    rcases hwho with rfl | rfl
    · obtain ⟨m, hm, hm2, hm3⟩ := entry_before hpin
      exact ⟨m, hm, ⟨_, hm2, rfl, rfl⟩, by rw [created_of_proj hm3, hS1]; simp [Role.birth]⟩
    · have hpin2 : proj (run.log.take j) Role.parent =
          (S1 ++ did (sleep 1) x3 :: S2) ++ did (sleep 1) x7 :: [] := by
        rw [hpin]; simp
      obtain ⟨m, hm, hm2, hm3⟩ := entry_before hpin2
      exact ⟨m, hm, ⟨_, hm2, rfl, rfl⟩, by rw [created_of_proj hm3, hS2]; simp [Role.birth]⟩
  obtain ⟨m, hmj, ⟨z, hz, hz1, hz2⟩, hborn⟩ := hsleep
  have him : i < m := settled_before hv hz hz1 hz2 hwho hborn hi (by
    intro hmem
    have := hfmt _ hmem
    rw [hx2] at this
    simp at this)
  omega


/-- The signalling line comes before the "exiting" line of a child that pauses. -/
theorem signal_before_line (hv : Valid argc argv run) {who : Role} {spawned exiting : String}
    (hform : ChildForm spawned exiting true (run.events argc argv who)) :
    ordered (Entry.isLine Role.parent "Parent signalling pgrp %d\n") (Entry.isLine who exiting)
      run.log := by
  intro i j x y hi hj hx hy
  obtain ⟨l, f, hl, hf, hP, hL, hF⟩ := hv.forks
  obtain ⟨S1, x3, S2, x7, x8, k, rest, hE, hS1, hS2, hbefore, hafter⟩ :=
    parent_form argc argv (run.os Role.parent) hP hl hf
  have hLform := leader_form argc argv (run.os Role.leader) hL
  have hFform := follower_form argc argv (run.os Role.follower) hF
  obtain ⟨hx1, hx2⟩ := isLine_entry hx
  obtain ⟨hy1, hy2⟩ := isLine_entry hy
  have hxeq : x = (Role.parent, x.2) := Prod.ext hx1 rfl
  have hyeq : y = (who, y.2) := Prod.ext hy1 rfl
  rw [hxeq] at hi
  rw [hyeq] at hj
  -- the `pause` of the child returns before its "exiting" line
  have hymem : y.2 ∈ run.events argc argv who := by
    rw [← hv.order who]
    exact mem_proj.mpr (List.mem_iff_getElem?.mpr ⟨j, hj⟩)
  obtain ⟨A, p3, g, e0, R, hEw, hA, hR⟩ := hform.exitingLast rfl y.2 hymem hy2
  have hprojW : proj run.log who = (A ++ [did pause p3, g]) ++ e0 :: R := by
    rw [hv.order who, hEw]; simp
  have hpinW := (pin (Event.isLine exiting) hprojW hA hR hj hy2).1
  have hpinW2 : proj (run.log.take j) who = A ++ did pause p3 :: [g] := by
    rw [hpinW]
  obtain ⟨j1, hj1, hj1e, -⟩ := entry_before hpinW2
  -- and only after a `killpg`
  have hwake := hv.wake j1 _ hj1e rfl
  obtain ⟨y2, hy2mem, hy2k⟩ := List.any_eq_true.mp hwake
  obtain ⟨j2, hj2, hj2e⟩ := mem_take_index hy2mem
  have hy2in : y2.2 ∈ run.events argc argv y2.1 := by
    rw [← hv.order y2.1]
    exact mem_proj.mpr (List.mem_iff_getElem?.mpr ⟨j2, hj2e⟩)
  -- which only the original process calls, after the signalling line
  have hparent : y2.1 = Role.parent := by
    rcases hrole : y2.1 with _ | _ | _
    · rfl
    · rw [hrole] at hy2in
      have := hLform.noKillpg _ hy2in
      rw [hy2k] at this
      simp at this
    · rw [hrole] at hy2in
      have := hFform.noKillpg _ hy2in
      rw [hy2k] at this
      simp at this
  have hy2eq : y2 = (Role.parent, y2.2) := Prod.ext hparent rfl
  rw [hy2eq] at hj2e
  have hprojK : proj run.log Role.parent =
      (S1 ++ did (sleep 1) x3 :: (S2 ++ [did (sleep 1) x7,
        did (printf "Parent signalling pgrp %d\n" [l]) x8])) ++
        did (killpg l SIGUSR1) k :: rest := by
    rw [hv.order Role.parent, Run.events, hE]; simp
  have hpinK := (pin Event.isKillpg hprojK
    (by
      intro e he
      simp only [List.mem_append, List.mem_cons, List.mem_singleton, List.not_mem_nil,
        or_false] at he
      rcases he with he | rfl | he | rfl | rfl
      · exact (hbefore e (by simp [he])).2
      · rfl
      · exact (hbefore e (by simp [he])).2
      · rfl
      · rfl)
    (fun e he => (hafter e he).2) hj2e hy2k).1
  have hprojS : proj run.log Role.parent =
      (S1 ++ did (sleep 1) x3 :: (S2 ++ [did (sleep 1) x7])) ++
        did (printf "Parent signalling pgrp %d\n" [l]) x8 :: (did (killpg l SIGUSR1) k :: rest) := by
    rw [hv.order Role.parent, Run.events, hE]; simp
  have hpinS := (pin (Event.isLine "Parent signalling pgrp %d\n") hprojS
    (fun e he => (hbefore e he).1)
    (by
      intro e he
      rcases List.mem_cons.mp he with rfl | he
      · simp [Event.isLine]
      · exact (hafter e he).1) hi hx2).1
  have hij2 : i < j2 := @lt_of_proj_take run.log Role.parent i j2 (by
    rw [hpinS, hpinK]; simp)
  omega

end Logs

/-! ## Argument handling -/

section Arguments

/-- On strings without an embedded NUL, `strcmp` returns 0 exactly for equal strings. -/
theorem strcmp_eq_zero_iff (a b : CString) (ha : (0 : Nat) ∉ a) (hb : (0 : Nat) ∉ b) :
    strcmp a b = 0 ↔ a = b := by
  induction a generalizing b with
  | nil =>
    cases b with
    | nil => simp [strcmp]
    | cons y ys =>
      have hy : y ≠ 0 := fun h => hb (by simp [h])
      simp [strcmp]
      omega
  | cons x xs ih =>
    cases b with
    | nil =>
      have hx : x ≠ 0 := fun h => ha (by simp [h])
      simp [strcmp]
      omega
    | cons y ys =>
      have hxs : (0 : Nat) ∉ xs := fun h => ha (List.mem_cons_of_mem _ h)
      have hys : (0 : Nat) ∉ ys := fun h => hb (List.mem_cons_of_mem _ h)
      by_cases hxy : x = y
      · simp [strcmp, hxy, ih ys hxs hys]
      · simp [strcmp, hxy]
        omega

theorem cstr_keepalive_no_nul : (0 : Nat) ∉ cstr "keepalive" := by decide

end Arguments

section Claims
open Event Call Signal Handler

/-- C1. Keepalive mode is selected exactly when a first argument exists and is the string
"keepalive", byte for byte: `keepalive_leader` is true if and only if `argv[1]` exists
(so `argc > 1`) and equals "keepalive".  With no first argument the default mode is
selected; the first arguments "Keepalive", "keepalive ", "" and "keepaliv" select the
default mode; and the arguments after the first have no influence.  The argument strings
are C strings, so none contains a NUL byte, and `argc` is the length of `argv`. -/
theorem C1_keepalive_selection (argv : List CString) (hwf : ∀ s ∈ argv, (0 : Nat) ∉ s) :
    (keepalive_leader argv.length argv = true ↔
      (1 < argv.length ∧ argv[1]? = some (cstr "keepalive"))) ∧
    (argv.length ≤ 1 → keepalive_leader argv.length argv = false) ∧
    (∀ a0 a1 rest rest', argv = a0 :: a1 :: rest →
      keepalive_leader (a0 :: a1 :: rest').length (a0 :: a1 :: rest') =
        keepalive_leader argv.length argv) ∧
    (∀ a0 a1 rest, argv = a0 :: a1 :: rest →
      a1 ∈ [cstr "Keepalive", cstr "keepalive ", cstr "", cstr "keepaliv"] →
      keepalive_leader argv.length argv = false) := by
  have key : keepalive_leader argv.length argv = true ↔
      (1 < argv.length ∧ argv[1]? = some (cstr "keepalive")) := by
    match argv, hwf with
    | [], _ => simp [keepalive_leader]
    | [_], _ => simp [keepalive_leader]
    | a0 :: a1 :: rest, hwf =>
      have h1 : (0 : Nat) ∉ a1 := hwf a1 (by simp)
      simp [keepalive_leader, strcmp_eq_zero_iff a1 _ h1 cstr_keepalive_no_nul]
  refine ⟨key, ?_, ?_, ?_⟩
  · intro hle
    cases h : keepalive_leader argv.length argv with
    | false => rfl
    | true => exact absurd (key.mp h).1 (by omega)
  · intro a0 a1 rest rest' h
    subst h
    simp [keepalive_leader]
  · intro a0 a1 rest h hmem
    cases hk : keepalive_leader argv.length argv with
    | false => rfl
    | true =>
      have h2 := (key.mp hk).2
      subst h
      simp only [List.getElem?_cons_succ, List.getElem?_cons_zero, Option.some.injEq] at h2
      subst h2
      revert hmem
      decide

/-- C1, at the argument vector `run keepalive extra`. -/
theorem C1_keepalive_selection_witness :
    (∀ s ∈ [cstr "run", cstr "keepalive", cstr "extra"], (0 : Nat) ∉ s) ∧
    keepalive_leader 3 [cstr "run", cstr "keepalive", cstr "extra"] = true ∧
    keepalive_leader 2 [cstr "run", cstr "Keepalive"] = false :=
  ⟨by decide,
   ((C1_keepalive_selection [cstr "run", cstr "keepalive", cstr "extra"] (by decide)).1).mpr
     ⟨by decide, by decide⟩,
   (C1_keepalive_selection [cstr "run", cstr "Keepalive"] (by decide)).2.2.2
     (cstr "run") (cstr "Keepalive") [] rfl (by decide)⟩

/-- C2. When both `fork` calls succeed, the operations the original process performs
(its calls other than the `perror` diagnostics) are, whatever `setpgid(leader, leader)`,
`setpgid(follower, leader)` and `killpg` return, an initial part of one fixed sequence:
install the handler, spawn the leader, `setpgid(leader, leader)`, `sleep(1)`, spawn the
follower, `setpgid(follower, leader)`, `sleep(1)`, the signalling line, one
`killpg(leader, SIGUSR1)`, `waitpid` on the leader, `waitpid` on the follower, the
completion line.  The process always gets as far as `waitpid` on the leader, and when no
`waitpid` blocks for ever it performs the whole sequence and `main` returns 0. -/
theorem C2_parent_sequence (argc : Int) (argv : List CString) (os : OS)
    (leader follower : Int)
    (h : forkResults (trace argc argv os) = [leader, follower]) (hf : 0 < follower) :
    operations (trace argc argv os) <+:
      [signal SIGUSR1 noop, fork, setpgid leader leader, sleep 1, fork,
       setpgid follower leader, sleep 1, printf "Parent signalling pgrp %d\n" [leader],
       killpg leader SIGUSR1, waitpid leader 0 0, waitpid follower 0 0,
       printf "Parent reaped children, exiting\n" []] ∧
    10 ≤ (operations (trace argc argv os)).length ∧
    ((∀ e ∈ trace argc argv os, e.isStuck = false) →
      operations (trace argc argv os) =
        [signal SIGUSR1 noop, fork, setpgid leader leader, sleep 1, fork,
         setpgid follower leader, sleep 1, printf "Parent signalling pgrp %d\n" [leader],
         killpg leader SIGUSR1, waitpid leader 0 0, waitpid follower 0 0,
         printf "Parent reaped children, exiting\n" []] ∧
      (trace argc argv os).getLast? = some (ret 0) ∧
      exitStatus (trace argc argv os) = some 0) := by
  obtain ⟨x0, s1, x3, s2, x6, x7, x8, k, x10, tail, ht, htail⟩ := parent_shape argc argv os h hf
  rw [ht]
  rcases htail with rfl | ⟨w1, rfl⟩ | ⟨w1, w2, x, rfl⟩ <;> split_ifs <;>
    simp [operations, calls, Event.call, Call.isDiagnostic, List.filter, exitStatus,
      Event.isStuck]

/-- C2, in a run where `setpgid(leader, leader)`, `setpgid(follower, leader)` and `killpg`
all fail. -/
theorem C2_parent_sequence_witness :
    forkResults (trace 1 [cstr "run"]
      (OS.ofList [0, 101, -1, 0, 102, -1, 0, 0, 27, -1, 0, 101, 102, 32])) = [101, 102] ∧
    (trace 1 [cstr "run"]
      (OS.ofList [0, 101, -1, 0, 102, -1, 0, 0, 27, -1, 0, 101, 102, 32])).getLast?
        = some (ret 0) :=
  ⟨by decide,
   ((C2_parent_sequence 1 [cstr "run"]
      (OS.ofList [0, 101, -1, 0, 102, -1, 0, 0, 27, -1, 0, 101, 102, 32])
      101 102 (by decide) (by decide)).2.2 (by decide)).2.1⟩

/-- C3. For the original process (no `fork` returned 0 in it): it ends with a non-zero
exit status if and only if one of its `fork` calls returned a negative value.  Whenever a
`fork` returns a negative value, what follows in the trace is exactly the diagnostic
`perror("fork")` and `_exit(-1)`: no later step is performed.  When both `fork` calls
succeed the process ends with exit status 0, unless it is suspended for ever in a
`waitpid` and does not end at all. -/
theorem C3_exit_status (argc : Int) (argv : List CString) (os : OS)
    (hparent : (0 : Int) ∉ forkResults (trace argc argv os)) :
    ((∃ s, exitStatus (trace argc argv os) = some s ∧ s ≠ 0) ↔
      ∃ r ∈ forkResults (trace argc argv os), r < 0) ∧
    (∀ pre r post, trace argc argv os = pre ++ did fork r :: post → r < 0 →
      ∃ x, post = [did (perror "fork") x, exit (-1)]) ∧
    (∀ l f, forkResults (trace argc argv os) = [l, f] → 0 < f →
      exitStatus (trace argc argv os) = some 0 ∨
      (exitStatus (trace argc argv os) = none ∧
        ∃ p, (trace argc argv os).getLast? = some (stuck (waitpid p 0 0)))) := by
  have hlast : ∀ l f, forkResults (trace argc argv os) = [l, f] → 0 < f →
      exitStatus (trace argc argv os) = some 0 ∨
      (exitStatus (trace argc argv os) = none ∧
        ∃ p, (trace argc argv os).getLast? = some (stuck (waitpid p 0 0))) := by
    intro l f h hf
    obtain ⟨x0, s1, x3, s2, x6, x7, x8, k, x10, tail, ht, htail⟩ :=
      parent_shape argc argv os h hf
    rw [ht]
    rcases htail with rfl | ⟨w1, rfl⟩ | ⟨w1, w2, x, rfl⟩ <;> split_ifs <;> simp [exitStatus]
  refine ⟨?_, ?_, hlast⟩
  · rcases fork_cases argc argv os with ⟨h1, h2⟩ | ⟨-, h2⟩ | ⟨h1, h4, h2⟩ | ⟨-, -, h2⟩ |
      ⟨h1, h4, h2⟩
    · obtain ⟨x0, x2, ht⟩ := trace_fork1_neg argc argv os h1
      rw [h2, ht]
      simp [exitStatus, h1]
    · rw [h2] at hparent; simp at hparent
    · obtain ⟨x0, s1, x3, x5, ht⟩ := trace_fork2_neg argc argv os h1 h4
      rw [h2, ht]
      simp [exitStatus, h4]
    · rw [h2] at hparent; simp at hparent
    · have h3 := hlast _ _ h2 h4
      rw [h2]
      constructor
      · rintro ⟨s, hs, hne⟩
        rcases h3 with h3 | ⟨h3, -⟩ <;> rw [h3] at hs <;> simp at hs
        exact absurd hs.symm hne
      · rintro ⟨r, hr, hneg⟩
        simp at hr
        omega
  · intro pre r post hsplit hr
    have hmem : r ∈ forkResults (trace argc argv os) := by
      rw [hsplit]; simp [forkResults, Event.forkResult]
    revert hsplit
    rcases fork_cases argc argv os with ⟨h1, h2⟩ | ⟨-, h2⟩ | ⟨h1, h4, h2⟩ | ⟨h1, -, h2⟩ |
      ⟨h1, h4, h2⟩
    · obtain ⟨x0, x2, ht⟩ := trace_fork1_neg argc argv os h1
      rw [ht]
      revert pre post
      suffices hs : ∀ pre e post, [did (signal SIGUSR1 noop) x0, did fork (os.result 1),
          did (perror "fork") x2, exit (-1)] = pre ++ e :: post → e = did fork r →
          ∃ x, post = [did (perror "fork") x, exit (-1)] from
        fun pre post hsplit => hs pre _ post hsplit rfl
      simp [forall_split_cons, forall_split_nil]
    · rw [h2] at hmem; simp at hmem; omega
    · obtain ⟨x0, s1, x3, x5, ht⟩ := trace_fork2_neg argc argv os h1 h4
      rw [ht]
      revert pre post
      suffices hs : ∀ pre e post, [did (signal SIGUSR1 noop) x0, did fork (os.result 1),
          did (setpgid (os.result 1) (os.result 1)) s1, did (sleep 1) x3,
          did fork (os.result 4), did (perror "fork") x5, exit (-1)] = pre ++ e :: post →
          e = did fork r → ∃ x, post = [did (perror "fork") x, exit (-1)] from
        fun pre post hsplit => hs pre _ post hsplit rfl
      simp [forall_split_cons, forall_split_nil]
      intro h; omega
    · rw [h2] at hmem; simp at hmem; omega
    · rw [h2] at hmem; simp at hmem; omega

/-- C3, in a run where the second `fork` fails. -/
theorem C3_exit_status_witness :
    (0 : Int) ∉ forkResults (trace 1 [cstr "run"] (OS.ofList [0, 101, 0, 0, -1])) ∧
    ∃ s, exitStatus (trace 1 [cstr "run"] (OS.ofList [0, 101, 0, 0, -1])) = some s ∧ s ≠ 0 :=
  ⟨by decide,
   (C3_exit_status 1 [cstr "run"] (OS.ofList [0, 101, 0, 0, -1]) (by decide)).1.mpr
     ⟨-1, by decide, by decide⟩⟩

/-- C4, refuted as stated: in this run `setpgid(leader, leader)` fails in the original
process (it returns -1), the next event is `sleep(1)`, and no diagnostic is written
anywhere in the trace. -/
theorem C4_counterexample :
    trace 1 [cstr "run"] (OS.ofList [0, 101, -1, 0, 102, 0, 0, 27, 0, 101, 102, 32]) =
      [did (signal SIGUSR1 noop) 0, did fork 101, did (setpgid 101 101) (-1),
       did (sleep 1) 0, did fork 102, did (setpgid 102 101) 0, did (sleep 1) 0,
       did (printf "Parent signalling pgrp %d\n" [101]) 27, did (killpg 101 SIGUSR1) 0,
       did (waitpid 101 0 0) 101, did (waitpid 102 0 0) 102,
       did (printf "Parent reaped children, exiting\n" []) 32, ret 0] ∧
    ¬ ∃ c ∈ calls (trace 1 [cstr "run"]
        (OS.ofList [0, 101, -1, 0, 102, 0, 0, 27, 0, 101, 102, 32])),
      c.isDiagnostic = true := by
  decide

/-- C4, amended.  Cut a trace at any event `e`, with `pre` before it and `post` after it.
(1) If `e` is the leader's own `setpgid` and it failed, `post` starts with the diagnostic
"leader failed to enter its own group" and goes on with the next step (`pause` in
keepalive mode, `getpid` for the "exiting" line otherwise).
(2) If `e` is the `setpgid(leader, leader)` of the original process, `post` starts with
`sleep(1)` whether the call failed or not: this failure is silent.
(3) If `e` is the follower's own `setpgid` and it failed, `post` starts with the diagnostic
"follower failed to setpgid to leader's group" and goes on with `pause`.
(4) If `e` is the `setpgid(follower, leader)` of the original process and it failed, `post`
starts with the diagnostic "child parentside setpgid" and goes on with `sleep(1)`.
(5) If `e` is `killpg` and it failed, `post` starts with the diagnostic "killpg" and goes on
with `waitpid` on the leader. -/
theorem C4_diagnostics (argc : Int) (argv : List CString) (os : OS)
    (pre post : List Event) (e : Event) (hsplit : trace argc argv os = pre ++ e :: post) :
    (∀ p s, e = did (setpgid 0 p) s → forkResults pre = [0] → s < 0 →
      ∃ x e1 rest, post = did (perror "leader failed to enter its own group") x :: e1 :: rest ∧
        e1.call = some (if keepalive_leader argc argv = true then pause else getpid)) ∧
    (∀ l s, e = did (setpgid l l) s → forkResults pre = [l] → l ≠ 0 →
      ∃ x rest, post = did (sleep 1) x :: rest) ∧
    (∀ l s, e = did (setpgid 0 l) s → forkResults pre = [l, 0] → s < 0 →
      ∃ x e1 rest, post =
        did (perror "follower failed to setpgid to leader's group") x :: e1 :: rest ∧
        e1.call = some pause) ∧
    (∀ l f s, e = did (setpgid f l) s → forkResults pre = [l, f] → f ≠ 0 → s < 0 →
      ∃ x x1 rest, post =
        did (perror "child parentside setpgid") x :: did (sleep 1) x1 :: rest) ∧
    (∀ g k, e = did (killpg g SIGUSR1) k → k < 0 →
      ∃ x e1 rest, post = did (perror "killpg") x :: e1 :: rest ∧
        e1.call = some (waitpid g 0 0)) := by
  have hfs := forkResults_split hsplit
  have hmem : e ∈ trace argc argv os := by rw [hsplit]; simp
  refine ⟨?_, ?_, ?_, ?_, ?_⟩
  · intro p s he hpre hs
    rw [hpre] at hfs
    have h1 : os.result 1 = 0 := by
      rcases fork_cases argc argv os with ⟨h1, h2⟩ | ⟨h1, -⟩ | ⟨h1, -, h2⟩ | ⟨h1, -, h2⟩ |
        ⟨h1, -, h2⟩
      · rw [h2] at hfs; simp at hfs; omega
      · exact h1
      all_goals rw [h2] at hfs; simp at hfs; omega
    exact diag_leader_own argc argv os h1 pre e post hsplit p s he hs
  · intro l s he hpre hl
    rw [hpre] at hfs
    have h1 : 0 < os.result 1 := by
      rcases fork_cases argc argv os with ⟨h1, h2⟩ | ⟨h1, h2⟩ | ⟨h1, -, -⟩ | ⟨h1, -, -⟩ |
        ⟨h1, -, -⟩
      · subst he
        exact absurd rfl ((no_group_call_fork1_neg argc argv os h1 _ hmem).1 l l s)
      · rw [h2] at hfs; simp at hfs; omega
      all_goals exact h1
    exact diag_parent_leader argc argv os h1 pre e post hsplit l s he hpre hl
  · intro l s he hpre hs
    rw [hpre] at hfs
    have h14 : 0 < os.result 1 ∧ os.result 4 = 0 := by
      rcases fork_cases argc argv os with ⟨h1, h2⟩ | ⟨h1, h2⟩ | ⟨h1, h4, h2⟩ | ⟨h1, h4, h2⟩ |
        ⟨h1, h4, h2⟩
      · rw [h2] at hfs; simp at hfs
      · rw [h2] at hfs; simp at hfs
      · rw [h2] at hfs; simp at hfs; omega
      · exact ⟨h1, h4⟩
      · rw [h2] at hfs; simp at hfs; omega
    exact diag_follower_own argc argv os h14.1 h14.2 pre e post hsplit l s he hs
  · intro l f s he hpre hf hs
    rw [hpre] at hfs
    have h14 : 0 < os.result 1 ∧ 0 < os.result 4 := by
      rcases fork_cases argc argv os with ⟨h1, h2⟩ | ⟨h1, h2⟩ | ⟨h1, h4, h2⟩ | ⟨h1, h4, h2⟩ |
        ⟨h1, h4, h2⟩
      · rw [h2] at hfs; simp at hfs
      · rw [h2] at hfs; simp at hfs
      · exfalso
        obtain ⟨x0, s1, x3, x5, ht⟩ := trace_fork2_neg argc argv os h1 h4
        have hkey : ∀ pre e post, trace argc argv os = pre ++ e :: post →
            ∀ l f s, e = did (setpgid f l) s → forkResults pre = [l, f] → False := by
          rw [ht]
          simp only [forall_split_cons, forall_split_nil]
          simp only [Event.did.injEq, reduceCtorEq, false_and, false_implies, implies_true,
            true_and, and_true, Call.setpgid.injEq, forall_const]
          rintro l f s ⟨-, -⟩ hf
          simp [forkResults, Event.forkResult] at hf
        exact hkey pre e post hsplit l f s he hpre
      · rw [h2] at hfs; simp at hfs; omega
      · exact ⟨h1, h4⟩
    exact diag_parent_follower argc argv os h14.1 h14.2 pre e post hsplit l f s he hpre hs
  · intro g k he hk
    have h14 := killpg_only_parent argc argv os (he ▸ hmem)
    exact diag_killpg argc argv os h14.1 h14.2 pre e post hsplit g k he hk

/-- C4 amended, at the failing `setpgid(follower, leader)` of a run where every group
operation of the original process fails. -/
theorem C4_diagnostics_witness :
    trace 1 [cstr "run"] (OS.ofList [0, 101, -1, 0, 102, -1, 0, 0, 27, -1, 0, 101, 102, 32]) =
      [did (signal SIGUSR1 noop) 0, did fork 101, did (setpgid 101 101) (-1),
       did (sleep 1) 0, did fork 102] ++ did (setpgid 102 101) (-1) ::
      [did (perror "child parentside setpgid") 0, did (sleep 1) 0,
       did (printf "Parent signalling pgrp %d\n" [101]) 27, did (killpg 101 SIGUSR1) (-1),
       did (perror "killpg") 0, did (waitpid 101 0 0) 101, did (waitpid 102 0 0) 102,
       did (printf "Parent reaped children, exiting\n" []) 32, ret 0] ∧
    ∃ x x1 rest,
      [did (perror "child parentside setpgid") 0, did (sleep 1) 0,
       did (printf "Parent signalling pgrp %d\n" [101]) 27, did (killpg 101 SIGUSR1) (-1),
       did (perror "killpg") 0, did (waitpid 101 0 0) 101, did (waitpid 102 0 0) 102,
       did (printf "Parent reaped children, exiting\n" []) 32, ret 0] =
        did (perror "child parentside setpgid") x :: did (sleep 1) x1 :: rest :=
  ⟨by decide,
   (C4_diagnostics 1 [cstr "run"]
      (OS.ofList [0, 101, -1, 0, 102, -1, 0, 0, 27, -1, 0, 101, 102, 32])
      [did (signal SIGUSR1 noop) 0, did fork 101, did (setpgid 101 101) (-1),
       did (sleep 1) 0, did fork 102]
      [did (perror "child parentside setpgid") 0, did (sleep 1) 0,
       did (printf "Parent signalling pgrp %d\n" [101]) 27, did (killpg 101 SIGUSR1) (-1),
       did (perror "killpg") 0, did (waitpid 101 0 0) 101, did (waitpid 102 0 0) 102,
       did (printf "Parent reaped children, exiting\n" []) 32, ret 0]
      (did (setpgid 102 101) (-1))
      (by decide)).2.2.2.1 101 102 (-1) rfl (by decide) (by decide) (by decide)⟩

/-- C5, refuted as stated.  In this run of the default mode both `fork` calls succeed, the
original process reaches its completion line and returns 0, the log satisfies every
assumption made of the operating system, and the lines come out in the order the program
produces on Linux: the leader prints its "exiting" line before the "Parent signalling
pgrp" line, not after it. -/
theorem C5_counterexample :
    Valid 1 [cstr "run"] defaultRun ∧
    (trace 1 [cstr "run"] (defaultRun.os Role.parent)).getLast? = some (ret 0) ∧
    stdout defaultRun.log =
      ["Leader %d spawned\n", "Leader %d exiting\n", "Follower %d spawned\n",
       "Parent signalling pgrp %d\n", "Follower %d exiting\n",
       "Parent reaped children, exiting\n"] ∧
    ¬ ordered (Entry.isLine Role.parent "Parent signalling pgrp %d\n")
        (Entry.isLine Role.leader "Leader %d exiting\n") defaultRun.log := by
  refine ⟨⟨⟨101, 102, by decide, by decide, by decide, by decide, by decide⟩, ?_, ?_, ?_, ?_⟩,
    by decide, by decide, ?_⟩
  · intro who; cases who <;> decide
  · rw [forall_index_iff]; decide
  · rw [forall_index_iff]; decide
  · rw [forall_index_iff]; decide
  · intro h
    exact absurd (h 17 8 _ _ rfl rfl (by decide) (by decide)) (by decide)

/-- C5, amended.  In every run in which both `fork` calls succeed, in either mode: the
"Parent signalling pgrp" line and the two "spawned" lines are printed; the signalling line
comes after the "spawned" line of the leader and after the "spawned" line of the
follower; it comes before the "exiting" line of the follower; in keepalive mode it comes
before the "exiting" line of the leader; and in the default mode the "exiting" line of
the leader comes before it. -/
theorem C5_ordering (argc : Int) (argv : List CString) (run : Run)
    (hv : Valid argc argv run) :
    (∃ (i : Nat) (x : Entry), run.log[i]? = some x ∧
      x.isLine Role.parent "Parent signalling pgrp %d\n" = true) ∧
    (∃ (i : Nat) (x : Entry), run.log[i]? = some x ∧
      x.isLine Role.leader "Leader %d spawned\n" = true) ∧
    (∃ (i : Nat) (x : Entry), run.log[i]? = some x ∧
      x.isLine Role.follower "Follower %d spawned\n" = true) ∧
    ordered (Entry.isLine Role.leader "Leader %d spawned\n")
      (Entry.isLine Role.parent "Parent signalling pgrp %d\n") run.log ∧
    ordered (Entry.isLine Role.follower "Follower %d spawned\n")
      (Entry.isLine Role.parent "Parent signalling pgrp %d\n") run.log ∧
    ordered (Entry.isLine Role.parent "Parent signalling pgrp %d\n")
      (Entry.isLine Role.follower "Follower %d exiting\n") run.log ∧
    (keepalive_leader argc argv = true →
      ordered (Entry.isLine Role.parent "Parent signalling pgrp %d\n")
        (Entry.isLine Role.leader "Leader %d exiting\n") run.log) ∧
    (keepalive_leader argc argv = false →
      ordered (Entry.isLine Role.leader "Leader %d exiting\n")
        (Entry.isLine Role.parent "Parent signalling pgrp %d\n") run.log) := by
  obtain ⟨l, f, hl, hf, hP, hL, hF⟩ := hv.forks
  have hLform := leader_form argc argv (run.os Role.leader) hL
  have hFform := follower_form argc argv (run.os Role.follower) hF
  refine ⟨?_, ?_, ?_, ?_, ?_, ?_, ?_, ?_⟩
  · obtain ⟨S1, x3, S2, x7, x8, k, rest, hE, -⟩ :=
      parent_form argc argv (run.os Role.parent) hP hl hf
    have hmem : did (printf "Parent signalling pgrp %d\n" [l]) x8 ∈ proj run.log Role.parent := by
      rw [hv.order Role.parent, Run.events, hE]; simp
    obtain ⟨i, hi⟩ := List.mem_iff_getElem?.mp (mem_proj.mp hmem)
    exact ⟨i, _, hi, by simp [Entry.isLine, Event.isLine]⟩
  · obtain ⟨e, he, hline⟩ := hLform.hasSpawned
    rw [← Run.events, ← hv.order Role.leader] at he
    obtain ⟨i, hi⟩ := List.mem_iff_getElem?.mp (mem_proj.mp he)
    exact ⟨i, _, hi, by simp [Entry.isLine, hline]⟩
  · obtain ⟨e, he, hline⟩ := hFform.hasSpawned
    rw [← Run.events, ← hv.order Role.follower] at he
    obtain ⟨i, hi⟩ := List.mem_iff_getElem?.mp (mem_proj.mp he)
    exact ⟨i, _, hi, by simp [Entry.isLine, hline]⟩
  · exact line_before_signal hv (by simp) hLform.spawnedFirst
  · exact line_before_signal hv (by simp) hFform.spawnedFirst
  · exact signal_before_line hv hFform
  · intro hk
    rw [hk] at hLform
    exact signal_before_line hv hLform
  · intro hk
    refine line_before_signal hv (by simp) ?_
    rw [show (run.events argc argv Role.leader) = own (trace argc argv (run.os Role.leader))
      from rfl, hLform.straight hk]
    simp

/-- C5 amended, at a run in keepalive mode. -/
theorem C5_ordering_witness :
    Valid 2 [cstr "run", cstr "keepalive"] keepaliveRun ∧
    ordered (Entry.isLine Role.parent "Parent signalling pgrp %d\n")
      (Entry.isLine Role.leader "Leader %d exiting\n") keepaliveRun.log :=
  have hv : Valid 2 [cstr "run", cstr "keepalive"] keepaliveRun :=
    ⟨⟨101, 102, by decide, by decide, by decide, by decide, by decide⟩,
     by intro who; cases who <;> decide,
     by rw [forall_index_iff]; decide,
     by rw [forall_index_iff]; decide,
     by rw [forall_index_iff]; decide⟩
  ⟨hv, (C5_ordering 2 [cstr "run", cstr "keepalive"] keepaliveRun hv).2.2.2.2.2.2.1
    (by decide)⟩

/-- C6. The leader (the process in which the first `fork` returned 0) does, after its
creation, exactly this: `getpid`, the "spawned" line, `getpid`, `setpgid(0, p2)` with `p2`
the pid just returned by `getpid`, a diagnostic if and only if that `setpgid` returned a
negative value, and then: in keepalive mode `pause`, and only when `pause` has returned
`getpid`, the "exiting" line and `_exit(0)`; in the default mode, with no call of `pause`
or any other blocking call, `getpid`, the "exiting" line and `_exit(0)`. -/
theorem C6_leader_process (argc : Int) (argv : List CString) (os : OS)
    (h : forkResults (trace argc argv os) = [0]) :
    ∃ p1 x1 p2 s x2 tail, childPart (trace argc argv os) = some (
      [did getpid p1, did (printf "Leader %d spawned\n" [p1]) x1, did getpid p2,
       did (setpgid 0 p2) s]
      ++ (if s < 0 then [did (perror "leader failed to enter its own group") x2] else [])
      ++ tail) ∧
      ((keepalive_leader argc argv = true ∧ (tail = [stuck pause] ∨ ∃ x3 p3 x4, tail =
          [did pause x3, did getpid p3, did (printf "Leader %d exiting\n" [p3]) x4, exit 0])) ∨
       (keepalive_leader argc argv = false ∧ ∃ p3 x4, tail =
          [did getpid p3, did (printf "Leader %d exiting\n" [p3]) x4, exit 0])) := by
  obtain ⟨x0, p1, x1, p2, s, x2, tail, ht, htail⟩ := leader_shape argc argv os h
  refine ⟨p1, x1, p2, s, x2, tail, ?_, htail⟩
  rw [ht]
  simp [childPart]

/-- C6, in the default mode with a failing `setpgid` in the leader. -/
theorem C6_leader_process_witness :
    forkResults (trace 1 [cstr "run"] (OS.ofList [0, 0, 101, 19, 101, -1, 0, 101, 19])) = [0] ∧
    ∃ p1 x1 p2 s x2 tail,
      childPart (trace 1 [cstr "run"] (OS.ofList [0, 0, 101, 19, 101, -1, 0, 101, 19])) = some (
      [did getpid p1, did (printf "Leader %d spawned\n" [p1]) x1, did getpid p2,
       did (setpgid 0 p2) s]
      ++ (if s < 0 then [did (perror "leader failed to enter its own group") x2] else [])
      ++ tail) ∧
      ((keepalive_leader 1 [cstr "run"] = true ∧ (tail = [stuck pause] ∨ ∃ x3 p3 x4, tail =
          [did pause x3, did getpid p3, did (printf "Leader %d exiting\n" [p3]) x4, exit 0])) ∨
       (keepalive_leader 1 [cstr "run"] = false ∧ ∃ p3 x4, tail =
          [did getpid p3, did (printf "Leader %d exiting\n" [p3]) x4, exit 0])) :=
  ⟨by decide, C6_leader_process 1 [cstr "run"] _ (by decide)⟩

/-- C7. The follower (the process in which the second `fork` returned 0) does, after its
creation, exactly this, in both modes: `getpid`, the "spawned" line, `setpgid(0, leader)`
with `leader` the pid returned by the first `fork`, a diagnostic if and only if that
`setpgid` returned a negative value, then `pause` whatever `setpgid` returned, and only
when `pause` has returned `getpid`, the "exiting" line and `_exit(0)`.  The original
process, from which the follower was split off at the second `fork` and which has
therefore seen the same first `fork` result, calls `setpgid(follower, leader)` and
`killpg(leader, SIGUSR1)` with that same `leader`. -/
theorem C7_follower_process (argc : Int) (argv : List CString) (osF osP : OS)
    (leader follower : Int)
    (hF : forkResults (trace argc argv osF) = [leader, 0])
    (hP : forkResults (trace argc argv osP) = [leader, follower]) (hf : 0 < follower) :
    (∃ p1 x1 s x2 tail, childPart (trace argc argv osF) = some (
      [did getpid p1, did (printf "Follower %d spawned\n" [p1]) x1, did (setpgid 0 leader) s]
      ++ (if s < 0 then [did (perror "follower failed to setpgid to leader's group") x2]
          else [])
      ++ tail) ∧
      (tail = [stuck pause] ∨ ∃ x3 p3 x4, tail =
        [did pause x3, did getpid p3, did (printf "Follower %d exiting\n" [p3]) x4, exit 0])) ∧
    (∃ s2, did (setpgid follower leader) s2 ∈ trace argc argv osP) ∧
    (∃ k, did (killpg leader SIGUSR1) k ∈ trace argc argv osP) := by
  refine ⟨?_, ?_, ?_⟩
  · obtain ⟨x0, s1, x3, p1, x1, s, x2, tail, ht, htail⟩ := follower_shape argc argv osF hF
    obtain ⟨-, hl, -⟩ := follower_of_forks argc argv osF hF
    have hne : leader ≠ 0 := by omega
    refine ⟨p1, x1, s, x2, tail, ?_, htail⟩
    rw [ht]
    simp [childPart, hne]
  · obtain ⟨x0, s1, x3, s2, x6, x7, x8, k, x10, tail, ht, -⟩ := parent_shape argc argv osP hP hf
    exact ⟨s2, by rw [ht]; simp⟩
  · obtain ⟨x0, s1, x3, s2, x6, x7, x8, k, x10, tail, ht, -⟩ := parent_shape argc argv osP hP hf
    exact ⟨k, by rw [ht]; simp⟩

/-- C7, for a follower whose `setpgid` fails and an original process whose group calls
fail. -/
theorem C7_follower_process_witness :
    forkResults (trace 1 [cstr "run"]
      (OS.ofList [0, 101, 0, 0, 0, 102, 21, -1, 0, -1, 102, 21])) = [101, 0] ∧
    forkResults (trace 1 [cstr "run"]
      (OS.ofList [0, 101, -1, 0, 102, -1, 0, 0, 27, -1, 0, 101, 102, 32])) = [101, 102] ∧
    (∃ s2, did (setpgid 102 101) s2 ∈ trace 1 [cstr "run"]
      (OS.ofList [0, 101, -1, 0, 102, -1, 0, 0, 27, -1, 0, 101, 102, 32])) :=
  ⟨by decide, by decide,
   (C7_follower_process 1 [cstr "run"]
      (OS.ofList [0, 101, 0, 0, 0, 102, 21, -1, 0, -1, 102, 21])
      (OS.ofList [0, 101, -1, 0, 102, -1, 0, 0, 27, -1, 0, 101, 102, 32])
      101 102 (by decide) (by decide) (by decide)).2.1⟩

/-- C8. When both `fork` calls succeed, the trace of the original process is exactly this:
`signal(SIGUSR1, noop)` before the first `fork`; the first `fork`; `setpgid(leader, leader)`;
`sleep(1)`; the second `fork`; `setpgid(follower, leader)` and its diagnostic on failure;
`sleep(1)`; the "Parent signalling pgrp" line; the one call `killpg(leader, SIGUSR1)` and
its diagnostic on failure; then `waitpid(leader, 0, 0)` and, when that has returned,
`waitpid(follower, 0, 0)` (null status pointer, options 0), and only when both have
returned the "Parent reaped children, exiting" line and `return 0`.  There is one
`killpg` call and there are at most these two `waitpid` calls. -/
theorem C8_parent_process (argc : Int) (argv : List CString) (os : OS) (leader follower : Int)
    (h : forkResults (trace argc argv os) = [leader, follower]) (hf : 0 < follower) :
    (∃ x0 s1 x3 s2 x6 x7 x8 k x10 tail, trace argc argv os =
      [did (signal SIGUSR1 noop) x0, did fork leader, did (setpgid leader leader) s1,
       did (sleep 1) x3, did fork follower, did (setpgid follower leader) s2]
      ++ (if s2 < 0 then [did (perror "child parentside setpgid") x6] else [])
      ++ [did (sleep 1) x7, did (printf "Parent signalling pgrp %d\n" [leader]) x8,
          did (killpg leader SIGUSR1) k]
      ++ (if k < 0 then [did (perror "killpg") x10] else [])
      ++ tail ∧
      (tail = [stuck (waitpid leader 0 0)] ∨
       (∃ w1, tail = [did (waitpid leader 0 0) w1, stuck (waitpid follower 0 0)]) ∨
       (∃ w1 w2 x, tail = [did (waitpid leader 0 0) w1, did (waitpid follower 0 0) w2,
          did (printf "Parent reaped children, exiting\n" []) x, ret 0]))) ∧
    (calls (trace argc argv os)).filter Call.isKillpg = [killpg leader SIGUSR1] ∧
    ((calls (trace argc argv os)).filter Call.isWaitpid = [waitpid leader 0 0] ∨
     (calls (trace argc argv os)).filter Call.isWaitpid =
       [waitpid leader 0 0, waitpid follower 0 0]) ∧
    (stuck (waitpid leader 0 0) ∉ trace argc argv os →
      (calls (trace argc argv os)).filter Call.isWaitpid =
        [waitpid leader 0 0, waitpid follower 0 0]) := by
  obtain ⟨x0, s1, x3, s2, x6, x7, x8, k, x10, tail, ht, htail⟩ := parent_shape argc argv os h hf
  refine ⟨⟨x0, s1, x3, s2, x6, x7, x8, k, x10, tail, ht, htail⟩, ?_, ?_, ?_⟩
  · rw [ht]
    rcases htail with rfl | ⟨w1, rfl⟩ | ⟨w1, w2, x, rfl⟩ <;> split_ifs <;>
      simp [calls, Event.call, Call.isKillpg, List.filter]
  · rw [ht]
    rcases htail with rfl | ⟨w1, rfl⟩ | ⟨w1, w2, x, rfl⟩ <;> split_ifs <;>
      simp [calls, Event.call, Call.isWaitpid, List.filter]
  · rw [ht]
    rcases htail with rfl | ⟨w1, rfl⟩ | ⟨w1, w2, x, rfl⟩ <;> split_ifs <;>
      simp [calls, Event.call, Call.isWaitpid, List.filter]

/-- C8, in a run where every group operation of the original process fails. -/
theorem C8_parent_process_witness :
    forkResults (trace 1 [cstr "run"]
      (OS.ofList [0, 101, -1, 0, 102, -1, 0, 0, 27, -1, 0, 101, 102, 32])) = [101, 102] ∧
    (calls (trace 1 [cstr "run"]
      (OS.ofList [0, 101, -1, 0, 102, -1, 0, 0, 27, -1, 0, 101, 102, 32]))).filter
        Call.isKillpg = [killpg 101 SIGUSR1] :=
  ⟨by decide,
   (C8_parent_process 1 [cstr "run"]
      (OS.ofList [0, 101, -1, 0, 102, -1, 0, 0, 27, -1, 0, 101, 102, 32])
      101 102 (by decide) (by decide)).2.1⟩

/-- C10. A child executes nothing of the part of the program of the original process.
In every trace, the part a child executes itself (after the `fork` that returned 0)
contains no `fork`, no `killpg`, no `waitpid` and neither of the two lines of the original
process; it never returns from `main`; any `_exit` in it has code 0; and it ends with
`_exit(0)` unless the child is suspended for ever in `pause`.  Along every control path
there are at most two `fork` calls, so at most two processes are created, and none of
them by a child. -/
theorem C10_children_stay_in_their_branch (argc : Int) (argv : List CString) (os : OS) :
    (∀ evs, childPart (trace argc argv os) = some evs →
      (∀ c ∈ calls evs, c ≠ fork ∧ c.isKillpg = false ∧ c.isWaitpid = false ∧
        (∀ args, c ≠ printf "Parent signalling pgrp %d\n" args) ∧
        (∀ args, c ≠ printf "Parent reaped children, exiting\n" args)) ∧
      forkResults evs = [] ∧
      (∀ v, ret v ∉ evs) ∧
      (∀ code, exit code ∈ evs → code = 0) ∧
      (evs.getLast? = some (exit 0) ∨ evs.getLast? = some (stuck pause))) ∧
    (forkResults (trace argc argv os)).length ≤ 2 ∧
    ((forkResults (trace argc argv os)).filter (fun r => decide (0 < r))).length ≤ 2 ∧
    (∀ l f, forkResults (trace argc argv os) = [l, f] → 0 < f →
      ((forkResults (trace argc argv os)).filter (fun r => decide (0 < r))).length = 2) := by
  refine ⟨?_, ?_, ?_, ?_⟩
  · intro evs hevs
    rcases fork_cases argc argv os with ⟨h1, h2⟩ | ⟨h1, h2⟩ | ⟨h1, h4, h2⟩ | ⟨h1, h4, h2⟩ |
      ⟨h1, h4, h2⟩
    · obtain ⟨x0, x2, ht⟩ := trace_fork1_neg argc argv os h1
      have hne : os.result 1 ≠ 0 := by omega
      rw [ht] at hevs
      simp [childPart, hne] at hevs
    · obtain ⟨x0, p1, x1, p2, s, x2, tail, ht, htail⟩ := trace_leader argc argv os h1
      have hc : childPart (trace argc argv os) = some (
          [did getpid p1, did (printf "Leader %d spawned\n" [p1]) x1, did getpid p2,
           did (setpgid 0 p2) s]
          ++ (if s < 0 then [did (perror "leader failed to enter its own group") x2] else [])
          ++ tail) := by
        rw [ht]; simp [childPart]
      rw [hc] at hevs
      cases hevs
      rcases htail with ⟨hk, rfl | ⟨x3, p3, x4, rfl⟩⟩ | ⟨hk, p3, x4, rfl⟩ <;> split_ifs <;>
        simp [calls, Event.call, Call.isKillpg, Call.isWaitpid, forkResults, Event.forkResult]
    · obtain ⟨x0, s1, x3, x5, ht⟩ := trace_fork2_neg argc argv os h1 h4
      have hne : os.result 1 ≠ 0 := by omega
      have hne4 : os.result 4 ≠ 0 := by omega
      rw [ht] at hevs
      simp [childPart, hne, hne4] at hevs
    · obtain ⟨x0, s1, x3, p1, x1, s, x2, tail, ht, htail⟩ := trace_follower argc argv os h1 h4
      have hne : os.result 1 ≠ 0 := by omega
      have hc : childPart (trace argc argv os) = some (
          [did getpid p1, did (printf "Follower %d spawned\n" [p1]) x1,
           did (setpgid 0 (os.result 1)) s]
          ++ (if s < 0 then [did (perror "follower failed to setpgid to leader's group") x2]
              else [])
          ++ tail) := by
        rw [ht]; simp [childPart, hne]
      rw [hc] at hevs
      cases hevs
      rcases htail with rfl | ⟨x3, p3, x4, rfl⟩ <;> split_ifs <;>
        simp [calls, Event.call, Call.isKillpg, Call.isWaitpid, forkResults, Event.forkResult]
    · obtain ⟨x0, s1, x3, s2, x6, x7, x8, k, x10, tail, ht, htail⟩ :=
        trace_parent argc argv os h1 h4
      have hne : os.result 1 ≠ 0 := by omega
      have hne4 : os.result 4 ≠ 0 := by omega
      rw [ht] at hevs
      rcases htail with rfl | ⟨w1, rfl⟩ | ⟨w1, w2, x, rfl⟩ <;> split_ifs at hevs <;>
        simp [childPart, hne, hne4] at hevs
  · rcases fork_cases argc argv os with ⟨-, h2⟩ | ⟨-, h2⟩ | ⟨-, -, h2⟩ | ⟨-, -, h2⟩ |
      ⟨-, -, h2⟩ <;> rw [h2] <;> simp
  · refine le_trans (List.length_filter_le _ _) ?_
    rcases fork_cases argc argv os with ⟨-, h2⟩ | ⟨-, h2⟩ | ⟨-, -, h2⟩ | ⟨-, -, h2⟩ |
      ⟨-, -, h2⟩ <;> rw [h2] <;> simp
  · intro l f h hf
    obtain ⟨-, hl, -⟩ := parent_of_forks argc argv os h hf
    rw [h]
    simp [List.filter, hl, hf]

end Claims

end PgrpRace
